import Mathlib

/-!
# Verification of the flask-restless-ng core pipeline

This file gives a shallow embedding of the core request pipeline of the
flask-restless-ng repository (JSON:API endpoints for SQLAlchemy models) and
proves, or refutes, a list of claims made by its natural-language
specification.

The embedded components, each translated from the named source location:

* pagination (`APIManager.paginate` in `flask_restless/manager.py`, the
  `count` helper in `flask_restless/views/helpers.py`);
* collection serialization with error aggregation (`APIManager.serialize_many`
  in `flask_restless/manager.py`);
* the default serializer (`DefaultSerializer.__init__` and
  `DefaultSerializer.serialize` in `flask_restless/serialization.py`);
* the inclusion resolver (`get_inclusions_for_instances` and `get_inclusions`
  in `flask_restless/helpers.py`);
* the default deserializer and the relationship deserializer
  (`DefaultDeserializer.deserialize` and
  `DefaultRelationshipDeserializer.deserialize` in
  `flask_restless/serialization.py`).

A SQLAlchemy query is embedded as the list of rows it yields, in order;
`query.limit(n).offset(o).all()` is `(rows.drop o).take n` because SQL applies
OFFSET before LIMIT regardless of the order in which the two methods are
chained.  Python `dict`s are embedded as association lists in insertion order
(Python dicts preserve insertion order and have unique keys); frozensets are
embedded as `Finset`.  Machine-level caveat: the source computes the last page
as `int(math.ceil(num_results / page_size))` using float division; the
embedding uses the exact natural-number ceiling, which agrees with the float
computation for all realistic row counts.
-/

namespace FlaskRestless

/-! ## Pagination (`APIManager.paginate`, `views/helpers.count`) -/

/-- Modelled from the spec: the `Paginated` container class is defined in
`flask_restless/views/base.py`, which is not among the sources; per the spec
(section 3 "Paginated Result" and section 4.6) it carries the items, the total
count, the page size, and nullable first/last/prev/next page numbers, the link
fields being absent (`none`) unless supplied by the caller. -/
structure Paginated (α : Type) where
  items : List α
  numResults : Nat
  pageSize : Nat
  first : Option Nat := none
  last : Option Nat := none
  prev : Option Nat := none
  next : Option Nat := none
  deriving Repr, DecidableEq

/-- Embedding of `count(session, query)` from `flask_restless/views/helpers.py`:
the function issues a COUNT query (or falls back to `query.count()`), so over
the list embedding of a query its value is the total number of rows the query
yields.  `paginate` always calls it on the original, un-limited query, for
which both branches of the source return exactly the total row count. -/
def countQuery {α : Type} (query : List α) : Nat :=
  query.length

/-- Embedding of `APIManager.paginate` (`flask_restless/manager.py`).  The
count helper is passed as the parameter `countFn` so that theorems can express
that a branch does not issue a count query (its result is independent of
`countFn`); the manager itself always uses `countQuery`. -/
def paginateWith {α : Type} (countFn : List α → Nat) (query : List α)
    (pageSize pageNumber : Nat) : Paginated α :=
  if pageSize = 0 then
    let items := query
    { items := items, pageSize := pageSize, numResults := items.length }
  else
    let offset := (pageNumber - 1) * pageSize
    let items := (query.drop offset).take pageSize
    let numResults :=
      if pageNumber = 1 ∧ items.length < pageSize then items.length
      else countFn query
    let first := 1
    let last := if numResults = 0 then 1 else (numResults + pageSize - 1) / pageSize
    let prev := if pageNumber > 1 then some (pageNumber - 1) else none
    let next := if pageNumber < last then some (pageNumber + 1) else none
    { items := items, numResults := numResults, first := some first,
      last := some last, next := next, prev := prev, pageSize := pageSize }

/-- The pagination entry point as the manager runs it: `paginate` with the
real count helper. -/
def paginate {α : Type} (query : List α) (pageSize pageNumber : Nat) :
    Paginated α :=
  paginateWith countQuery query pageSize pageNumber

/-- Unfolding lemma: the value of `paginateWith` on a positive page size,
with the local variables of the source substituted through. -/
theorem paginateWith_pos_eq (α : Type) (countFn : List α → Nat) (query : List α)
    (pageSize pageNumber : Nat) (hps : pageSize ≠ 0) :
    paginateWith countFn query pageSize pageNumber =
      { items := (query.drop ((pageNumber - 1) * pageSize)).take pageSize,
        numResults :=
          if pageNumber = 1 ∧
              ((query.drop ((pageNumber - 1) * pageSize)).take pageSize).length < pageSize then
            ((query.drop ((pageNumber - 1) * pageSize)).take pageSize).length
          else countFn query,
        pageSize := pageSize,
        first := some 1,
        last := some (if (if pageNumber = 1 ∧
              ((query.drop ((pageNumber - 1) * pageSize)).take pageSize).length < pageSize then
            ((query.drop ((pageNumber - 1) * pageSize)).take pageSize).length
          else countFn query) = 0 then 1
          else ((if pageNumber = 1 ∧
              ((query.drop ((pageNumber - 1) * pageSize)).take pageSize).length < pageSize then
            ((query.drop ((pageNumber - 1) * pageSize)).take pageSize).length
          else countFn query) + pageSize - 1) / pageSize),
        prev := if 1 < pageNumber then some (pageNumber - 1) else none,
        next := if pageNumber < (if (if pageNumber = 1 ∧
              ((query.drop ((pageNumber - 1) * pageSize)).take pageSize).length < pageSize then
            ((query.drop ((pageNumber - 1) * pageSize)).take pageSize).length
          else countFn query) = 0 then 1
          else ((if pageNumber = 1 ∧
              ((query.drop ((pageNumber - 1) * pageSize)).take pageSize).length < pageSize then
            ((query.drop ((pageNumber - 1) * pageSize)).take pageSize).length
          else countFn query) + pageSize - 1) / pageSize) then
            some (pageNumber + 1) else none } := by
  simp only [paginateWith, if_neg hps, gt_iff_lt]

/-- C3: for every pagination request with `page_size > 0`, the paginated
result has `first = 1`; `last = ceil(num_results / page_size)` except that
`last = 1` when `num_results = 0`; `prev = page_number - 1` when
`page_number > 1` and null otherwise; and `next = page_number + 1` when
`page_number < last` and null otherwise. -/
theorem paginate_link_fields (α : Type) (query : List α)
    (pageSize pageNumber : Nat) (hs : 0 < pageSize) :
    (paginate query pageSize pageNumber).first = some 1 ∧
    (paginate query pageSize pageNumber).last =
      some (if (paginate query pageSize pageNumber).numResults = 0 then 1
            else CeilDiv.ceilDiv (paginate query pageSize pageNumber).numResults pageSize) ∧
    (paginate query pageSize pageNumber).prev =
      (if 1 < pageNumber then some (pageNumber - 1) else none) ∧
    (∀ l, (paginate query pageSize pageNumber).last = some l →
      (paginate query pageSize pageNumber).next =
        (if pageNumber < l then some (pageNumber + 1) else none)) := by
  have hps : pageSize ≠ 0 := Nat.pos_iff_ne_zero.mp hs
  rw [paginate, paginateWith_pos_eq α countQuery query pageSize pageNumber hps]
  simp only [Nat.ceilDiv_eq_add_pred_div]
  refine ⟨trivial, trivial, trivial, ?_⟩
  intro l hl
  rw [Option.some_inj] at hl
  rw [← hl]

/-- Witness for C3 at a concrete input: three rows, page size two, page one. -/
theorem paginate_link_fields_witness :
    (paginate [10, 20, 30] 2 1).first = some 1 ∧
    (paginate [10, 20, 30] 2 1).last =
      some (if (paginate [10, 20, 30] 2 1).numResults = 0 then 1
            else CeilDiv.ceilDiv (paginate [10, 20, 30] 2 1).numResults 2) ∧
    (paginate [10, 20, 30] 2 1).prev = (if 1 < 1 then some (1 - 1) else none) ∧
    (∀ l, (paginate [10, 20, 30] 2 1).last = some l →
      (paginate [10, 20, 30] 2 1).next =
        (if 1 < l then some (1 + 1) else none)) :=
  paginate_link_fields Nat [10, 20, 30] 2 1 (by decide)

/-- C4: for every pagination request with `page_size == 0`, `paginate` returns
all rows matching the query, `num_results` equals the number of returned rows,
and the page-size-derived link fields `first`, `last`, `prev`, `next` are
absent from the result. -/
theorem paginate_disabled (α : Type) (query : List α) (pageNumber : Nat) :
    (paginate query 0 pageNumber).items = query ∧
    (paginate query 0 pageNumber).numResults =
      (paginate query 0 pageNumber).items.length ∧
    (paginate query 0 pageNumber).first = none ∧
    (paginate query 0 pageNumber).last = none ∧
    (paginate query 0 pageNumber).prev = none ∧
    (paginate query 0 pageNumber).next = none := by
  simp [paginate, paginateWith]

/-- C5: for every pagination request with `page_size > 0`, `paginate` fetches
rows with offset `(page_number - 1) * page_size` and limit `page_size`; when
`page_number == 1` and fewer than `page_size` rows are returned, `num_results`
is the number of returned rows, the result does not depend on the count
helper (no count query is issued), and that value equals the true total count
of the query; in every other case `num_results` comes from the count query. -/
theorem paginate_window_and_count (α : Type) (query : List α)
    (pageSize pageNumber : Nat) (hs : 0 < pageSize) :
    (paginate query pageSize pageNumber).items =
      (query.drop ((pageNumber - 1) * pageSize)).take pageSize ∧
    (pageNumber = 1 ∧ (paginate query pageSize pageNumber).items.length < pageSize →
      (∀ countFn : List α → Nat,
        paginateWith countFn query pageSize pageNumber =
          paginate query pageSize pageNumber) ∧
      (paginate query pageSize pageNumber).numResults =
        (paginate query pageSize pageNumber).items.length ∧
      (paginate query pageSize pageNumber).numResults = countQuery query) ∧
    (¬ (pageNumber = 1 ∧ (paginate query pageSize pageNumber).items.length < pageSize) →
      (paginate query pageSize pageNumber).numResults = countQuery query) := by
  have hps : pageSize ≠ 0 := Nat.pos_iff_ne_zero.mp hs
  rw [paginate, paginateWith_pos_eq α countQuery query pageSize pageNumber hps]
  refine ⟨rfl, ?_, ?_⟩
  · intro h
    have hcond : pageNumber = 1 ∧
        ((query.drop ((pageNumber - 1) * pageSize)).take pageSize).length < pageSize := h
    -- On page one the offset is zero, so fewer returned rows than the page
    -- size means the whole query result was returned.
    have hoff : (pageNumber - 1) * pageSize = 0 := by
      rw [hcond.1]
      simp
    have hlen : query.length < pageSize := by
      have h1 := hcond.2
      rw [hoff, List.drop_zero, List.length_take] at h1
      omega
    have htake : query.take pageSize = query :=
      List.take_of_length_le (Nat.le_of_lt hlen)
    refine ⟨?_, ?_, ?_⟩
    · intro countFn
      rw [paginateWith_pos_eq α countFn query pageSize pageNumber hps]
      simp only [if_pos hcond]
    · simp only [if_pos hcond]
    · simp only [if_pos hcond, hoff, List.drop_zero, htake, countQuery, ite_self]
  · intro h
    simp only [if_neg h, countQuery]

/-- Witness for C5 at a concrete input: one row, page size two, page one (the
one-page shortcut applies), exercising every hypothesis of the theorem. -/
theorem paginate_window_and_count_witness :
    (paginate [7] 2 1).numResults = countQuery [7] ∧
    (∀ countFn : List Nat → Nat, paginateWith countFn [7] 2 1 = paginate [7] 2 1) :=
  have h := paginate_window_and_count Nat [7] 2 1 (by decide)
  ⟨(h.2.1 (by decide)).2.2, (h.2.1 (by decide)).1⟩

/-! ## Collection serialization with error aggregation
(`APIManager.serialize_many`, `flask_restless/manager.py`)

Per-instance serialization is abstracted as a function `f : α → Except ε β`:
`APIManager.serialize` looks up the registered serializer for the instance's
model and invokes it, which either yields a resource object or raises a
`SerializationException`.  The `MultipleExceptions` container that
`serialize_many` raises is defined in `flask_restless/views/base.py`, which is
not among the sources; modelled from the spec, it simply aggregates the list
of collected serialization exceptions, so the embedding returns the error
list itself. -/

/-- The error component of an `Except`, if any. -/
def errOf {ε β : Type} : Except ε β → Option ε
  | .error e => some e
  | .ok _ => none

/-- The success component of an `Except`, if any. -/
def okOf {ε β : Type} : Except ε β → Option β
  | .error _ => none
  | .ok v => some v

/-- The loop of `APIManager.serialize_many` with its two accumulators
(`errors` and `result`); after the loop, a nonempty `errors` list is raised
as `MultipleExceptions(errors)`, otherwise `result` is returned. -/
def serializeManyLoop {α ε β : Type} (f : α → Except ε β) :
    List α → List ε → List β → Except (List ε) (List β)
  | [], errors, result =>
      match errors with
      | [] => .ok result
      | _ => .error errors
  | x :: rest, errors, result =>
      match f x with
      | .ok v => serializeManyLoop f rest errors (result ++ [v])
      | .error e => serializeManyLoop f rest (errors ++ [e]) result

/-- Embedding of `APIManager.serialize_many`. -/
def serialize_many {α ε β : Type} (f : α → Except ε β) (instances : List α) :
    Except (List ε) (List β) :=
  serializeManyLoop f instances [] []

/-- Accumulator-generalized characterization of the `serialize_many` loop. -/
theorem serializeManyLoop_eq {α ε β : Type} (f : α → Except ε β) (xs : List α) :
    ∀ errors result, serializeManyLoop f xs errors result =
      (match errors ++ xs.filterMap (fun x => errOf (f x)) with
        | [] => .ok (result ++ xs.filterMap (fun x => okOf (f x)))
        | es => .error es) := by
  induction xs with
  | nil => intro errors result; cases errors <;> simp [serializeManyLoop]
  | cons x rest ih =>
      intro errors result
      cases hfx : f x with
      | ok v =>
          simp only [serializeManyLoop, hfx, List.filterMap_cons, errOf, okOf,
            ih (errors) (result ++ [v]), List.append_assoc, List.singleton_append]
      | error e =>
          simp only [serializeManyLoop, hfx, List.filterMap_cons, errOf, okOf,
            ih (errors ++ [e]) result, List.append_assoc, List.singleton_append]

/-- C8: when serializing a collection, a failure on one instance does not
abort the rest: if at least one instance fails, `serialize_many` raises a
single aggregated error containing one serialization exception per failing
instance (all of them, in order); if no instance fails, the full list of
serialized objects is returned (one per instance). -/
theorem serialize_many_aggregates {α ε β : Type} (f : α → Except ε β)
    (instances : List α) :
    (instances.filterMap (fun x => errOf (f x)) = [] →
      serialize_many f instances =
        .ok (instances.filterMap (fun x => okOf (f x))) ∧
      (instances.filterMap (fun x => okOf (f x))).length = instances.length) ∧
    (instances.filterMap (fun x => errOf (f x)) ≠ [] →
      serialize_many f instances =
        .error (instances.filterMap (fun x => errOf (f x)))) := by
  constructor
  · intro hnoerr
    constructor
    · rw [serialize_many, serializeManyLoop_eq f instances [] []]
      simp [hnoerr]
    · -- With no errors, every instance produced a success value.
      induction instances with
      | nil => simp
      | cons x rest ih =>
          cases hfx : f x with
          | ok v =>
              rw [List.filterMap_cons] at hnoerr ⊢
              simp only [hfx, errOf, okOf] at hnoerr ⊢
              exact congrArg (fun n => n + 1) (ih hnoerr)
          | error e =>
              rw [List.filterMap_cons] at hnoerr
              simp only [hfx, errOf] at hnoerr
              simp at hnoerr
  · intro herr
    rw [serialize_many, serializeManyLoop_eq f instances [] []]
    cases h : instances.filterMap (fun x => errOf (f x)) with
    | nil => exact absurd h herr
    | cons e es => simp

/-- Witness for C8 at a concrete input: serializing `[1, 2, 3]` where odd
numbers fail collects both failures (1 and 3), not only the first. -/
theorem serialize_many_aggregates_witness :
    serialize_many (fun n => if n % 2 = 0 then Except.ok n else Except.error n)
      [1, 2, 3] = Except.error [1, 3] := by
  have h := (serialize_many_aggregates
    (fun n => if n % 2 = 0 then Except.ok n else Except.error n) [1, 2, 3]).2
    (by decide)
  rw [h]
  rfl

/-! ## Default serializer (`DefaultSerializer`, `flask_restless/serialization.py`)

Model introspection (`attribute_columns`, `get_relations`, `foreign_keys`,
`primary_key_names` in `flask_restless/helpers.py`) reflects over SQLAlchemy
internals; its outputs are embedded as the finite sets of names it returns.
Python `frozenset`s are embedded as `Finset String`; `get_column_name` is the
identity on field names given as strings.  A serialized JSON dictionary whose
key set is data-dependent is embedded as its key `Finset` together with the
function giving the value rendered at each key. -/

/-- A Python attribute value as seen by the serializer.  Temporal values carry
their ISO-8601 rendering; a zero-argument callable carries the value it
returns when called. -/
inductive PyValue where
  | none
  | int (i : Int)
  | str (s : String)
  | boolean (b : Bool)
  | date (iso : String)
  | datetime (iso : String)
  | time (iso : String)
  | timedelta (seconds : Int)
  | callable (result : PyValue)
  deriving Repr, DecidableEq

/-- First pass of `DefaultSerializer.serialize` over attribute values: call
any value that is callable (one call, as in the source). -/
def callIfCallable : PyValue → PyValue
  | .callable v => v
  | v => v

/-- Second pass of `DefaultSerializer.serialize` over attribute values:
date, datetime and time values become their `isoformat()` string, timedelta
values become their `total_seconds()` count (embedded as an exact integer
count of seconds). -/
def renderTemporal : PyValue → PyValue
  | .date iso => .str iso
  | .datetime iso => .str iso
  | .time iso => .str iso
  | .timedelta seconds => .int seconds
  | v => v

/-- The value rendered for one attribute: both passes in source order. -/
def serializeAttrValue (v : PyValue) : PyValue :=
  renderTemporal (callIfCallable v)

/-- Python `str()` on an attribute value, used to render the resource `id`
(`id_ = str(getattr(instance, self._primary_key))`).  Primary keys are
scalars; the remaining cases are rendered in the evident way. -/
def pyStr : PyValue → String
  | .none => "None"
  | .int i => toString i
  | .str s => s
  | .boolean b => if b then "True" else "False"
  | .date iso => iso
  | .datetime iso => iso
  | .time iso => iso
  | .timedelta seconds => toString seconds
  | .callable _ => "callable"

/-- The relationship value `getattr(instance, relation)` together with the
cardinality decision of `is_like_list`: a list-like relationship yields a list
of related instances, a to-one relationship yields one instance or None.
Related instances are identified by a database handle (`Nat`). -/
inductive RelLike where
  | many (xs : List Nat)
  | one (x : Option Nat)
  deriving Repr, DecidableEq

/-- An instance of a SQLAlchemy model, as the serializer reads it:
`attr` is `getattr` for scalar and hybrid attributes, `rel` is `getattr` for
relationship names. -/
structure PyInstance where
  attr : String → PyValue
  rel : String → RelLike

/-- The slice of `APIManager` the serializer consults: the
`include_links` flag, `primary_key_for(model)`, URL construction and
`serialize_relationship` (resource identifiers as (type, id) pairs). -/
structure ManagerCtx where
  includeLinks : Bool
  primaryKeyForModel : String
  selfUrl : PyValue → String
  relSelfLink : PyValue → String → String
  relRelatedLink : PyValue → String → String
  relatedModelExists : String → Bool
  serializeRel : Nat → String × String

/-- The `data` member of a serialized relationship object: a list of resource
identifiers for a to-many relationship, a single identifier or null for a
to-one relationship. -/
inductive RelData where
  | many (ids : List (String × String))
  | one (id : String × String)
  | nullOne
  deriving Repr, DecidableEq

/-- A serialized relationship object (`DefaultSerializer.create_relationship`):
optional `links` (self link plus optional related link) and the linkage
`data`. -/
structure RelationshipObject where
  links : Option (String × Option String)
  data : RelData
  deriving Repr, DecidableEq

/-- Embedding of `DefaultSerializer.create_relationship`. -/
def create_relationship (mgr : ManagerCtx) (inst : PyInstance)
    (relation : String) : RelationshipObject :=
  let links :=
    if mgr.includeLinks then
      let pkValue := inst.attr mgr.primaryKeyForModel
      let selfLink := mgr.relSelfLink pkValue relation
      let relatedLink := mgr.relRelatedLink pkValue relation
      some (selfLink, if mgr.relatedModelExists relation then some relatedLink else Option.none)
    else Option.none
  let data :=
    match inst.rel relation with
    | .many xs => RelData.many (xs.map mgr.serializeRel)
    | .one (some x) => RelData.one (mgr.serializeRel x)
    | .one Option.none => RelData.nullOne
  { links := links, data := data }

/-- A serialized attributes dictionary: its key set and the value rendered at
each key. -/
structure AttrDict where
  keys : Finset String
  value : String → PyValue

/-- A serialized relationships dictionary: its key set and the relationship
object rendered at each key. -/
structure RelDict where
  keys : Finset String
  value : String → RelationshipObject

/-- A serialized resource object.  `id` and `type` are always present;
`attributes` and `relationships` are absent (`none`) when their dictionaries
would be empty; `links` is the optional self link. -/
structure ResourceObject where
  id : String
  type : String
  attributes : Option AttrDict
  relationships : Option RelDict
  links : Option String

/-- The inputs that `DefaultSerializer.__init__` reads: the introspected
model metadata and the registration keyword arguments. -/
structure SerializerInput where
  attributeColumns : Finset String
  modelRelations : Finset String
  foreignKeys : Finset String
  primaryKeyNames : Finset String
  typeName : String
  primaryKey : String
  additionalAttributes : Option (Finset String)
  only : Option (Finset String)
  exclude : Option (Finset String)
  deriving DecidableEq

/-- The state `DefaultSerializer.__init__` stores: `self._type`,
`self._primary_key`, `self._columns`, `self._relations`, `self._only`. -/
structure SerializerState where
  typeName : String
  primaryKey : String
  columns : Finset String
  relations : Finset String
  onlyInit : Option (Finset String)
  deriving DecidableEq

/-- The `COLUMN_BLACKLIST` constant of `flask_restless/serialization.py`. -/
def COLUMN_BLACKLIST : Finset String := {"_sa_polymorphic_on"}

/-- Python `column.startswith('__')`, computed over the character list. -/
def startsWithDunder (c : String) : Bool :=
  match c.data with
  | a :: b :: _ => a = '_' && b = '_'
  | _ => false

/-- Embedding of `DefaultSerializer.__init__`: the validation checks in
source order, then the column/relation set pipeline.  An empty string stands
for the falsy (absent) `primary_key` argument. -/
def initSerializer (inp : SerializerInput) : Except String SerializerState :=
  if inp.only.isSome ∧ inp.exclude.isSome then
    .error "Cannot specify both only and exclude keyword arguments simultaneously"
  else if (match inp.additionalAttributes, inp.exclude with
    | some add, some exc => if (add ∩ exc) = ∅ then false else true
    | _, _ => false : Bool) then
    .error "Cannot exclude attributes listed in the additional_attributes keyword argument"
  else if inp.primaryKey = "" then
    .error "primary_key is required"
  else if inp.primaryKey ∉ inp.primaryKeyNames then
    .error "Column is not a primary key"
  else
    let relations0 := inp.modelRelations
    let columns0 := inp.attributeColumns \ {"type", "id"}
    let columns1 :=
      match inp.additionalAttributes with
      | some a => columns0 ∪ a
      | Option.none => columns0
    let withOnly :=
      match inp.only with
      | some o => (columns1 ∩ o, relations0 ∩ o, some o)
      | Option.none => (columns1, relations0, (Option.none : Option (Finset String)))
    let withExclude :=
      match inp.exclude with
      | some e => (withOnly.1 \ e, withOnly.2.1 \ e)
      | Option.none => (withOnly.1, withOnly.2.1)
    let columns2 := withExclude.1 \ inp.foreignKeys
    let columns3 := columns2.filter (fun c => ¬ startsWithDunder c ∧ c ∉ COLUMN_BLACKLIST)
    .ok { typeName := inp.typeName, primaryKey := inp.primaryKey,
          columns := columns3, relations := withExclude.2, onlyInit := withOnly.2.2 }

/-- Whether a sparse-fieldset argument permits the `self` link: the source
tests `self._only is None or 'self' in self._only` (and likewise for the
per-request `only`). -/
def selfAllowed : Option (Finset String) → Bool
  | Option.none => true
  | some o => if "self" ∈ o then true else false

/-- Embedding of `DefaultSerializer.serialize`. -/
def serialize (mgr : ManagerCtx) (s : SerializerState) (inst : PyInstance)
    (only : Option (Finset String)) : ResourceObject :=
  let columns :=
    match only with
    | some o => s.columns ∩ o
    | Option.none => s.columns
  let id_ := pyStr (inst.attr s.primaryKey)
  let type_ := s.typeName
  let relations :=
    match only with
    | some o => s.relations ∩ o
    | Option.none => s.relations
  { id := id_, type := type_,
    attributes :=
      if columns.Nonempty then
        some { keys := columns, value := fun c => serializeAttrValue (inst.attr c) }
      else Option.none,
    relationships :=
      if relations.Nonempty then
        some { keys := relations, value := fun r => create_relationship mgr inst r }
      else Option.none,
    links :=
      if mgr.includeLinks ∧ selfAllowed s.onlyInit ∧ selfAllowed only then
        some (mgr.selfUrl (inst.attr mgr.primaryKeyForModel))
      else Option.none }

/-- The set of member names (JSON:API fields) rendered for a resource object:
the keys of its `attributes` dictionary plus the keys of its `relationships`
dictionary. -/
def fieldKeys (r : ResourceObject) : Finset String :=
  (match r.attributes with
    | some a => a.keys
    | Option.none => ∅) ∪
  (match r.relationships with
    | some b => b.keys
    | Option.none => ∅)

instance instDecEqExcept {ε β : Type} [DecidableEq ε] [DecidableEq β] :
    DecidableEq (Except ε β) := fun x y =>
  match x, y with
  | .error a, .error b =>
      if h : a = b then .isTrue (by rw [h])
      else .isFalse (by intro hc; injection hc; contradiction)
  | .ok a, .ok b =>
      if h : a = b then .isTrue (by rw [h])
      else .isFalse (by intro hc; injection hc; contradiction)
  | .error _, .ok _ => .isFalse (fun hc => Except.noConfusion hc)
  | .ok _, .error _ => .isFalse (fun hc => Except.noConfusion hc)

/-- Finset algebra behind the sparse-fieldset invariant: intersecting the two
eligible sets with the request and uniting is the same as intersecting the
request with the union of the eligible sets. -/
theorem inter_union_requested (c r o : Finset String) :
    (c ∩ o) ∪ (r ∩ o) = o ∩ (c ∪ r) := by
  ext a
  simp only [Finset.mem_union, Finset.mem_inter]
  tauto

/-- C6: for every instance and requested field subset `only`, the serialized
resource object carries `id` and `type` plus exactly the intersection of the
requested fields with the eligible fields computed at registration (which
exclude foreign-key columns), and never more; the `attributes` and
`relationships` members are omitted entirely when their key sets are empty. -/
theorem serialize_sparse_fields (inp : SerializerInput) (s : SerializerState)
    (hinit : initSerializer inp = .ok s) (mgr : ManagerCtx) (inst : PyInstance)
    (only : Finset String) :
    fieldKeys (serialize mgr s inst (some only)) = only ∩ (s.columns ∪ s.relations) ∧
    ((serialize mgr s inst (some only)).attributes = Option.none ↔ s.columns ∩ only = ∅) ∧
    ((serialize mgr s inst (some only)).relationships = Option.none ↔ s.relations ∩ only = ∅) ∧
    Disjoint s.columns inp.foreignKeys ∧
    (serialize mgr s inst (some only)).id = pyStr (inst.attr s.primaryKey) ∧
    (serialize mgr s inst (some only)).type = s.typeName := by
  refine ⟨?_, ?_, ?_, ?_, rfl, rfl⟩
  · -- The rendered field keys.
    have key := inter_union_requested s.columns s.relations only
    by_cases hA : (s.columns ∩ only).Nonempty <;>
      by_cases hB : (s.relations ∩ only).Nonempty
    · simpa [serialize, fieldKeys, hA, hB] using key
    · rw [Finset.not_nonempty_iff_eq_empty] at hB
      rw [hB] at key
      simpa [serialize, fieldKeys, hA, hB] using key
    · rw [Finset.not_nonempty_iff_eq_empty] at hA
      rw [hA] at key
      simpa [serialize, fieldKeys, hA, hB] using key
    · rw [Finset.not_nonempty_iff_eq_empty] at hA hB
      rw [hA, hB] at key
      simpa [serialize, fieldKeys, hA, hB] using key
  · by_cases hA : (s.columns ∩ only).Nonempty
    · simp [serialize, hA, Finset.nonempty_iff_ne_empty.mp hA]
    · rw [Finset.not_nonempty_iff_eq_empty] at hA
      simp [serialize, hA]
  · by_cases hB : (s.relations ∩ only).Nonempty
    · simp [serialize, hB, Finset.nonempty_iff_ne_empty.mp hB]
    · rw [Finset.not_nonempty_iff_eq_empty] at hB
      simp [serialize, hB]
  · -- Foreign-key columns are excluded by `__init__`.
    unfold initSerializer at hinit
    split_ifs at hinit <;> try exact Except.noConfusion hinit
    injection hinit with h
    rw [← h]
    refine Finset.disjoint_left.mpr ?_
    intro a ha
    have ha2 := Finset.mem_of_mem_filter a ha
    exact (Finset.mem_sdiff.mp ha2).2

/-- A concrete serializer registration: a person model with a foreign-key
column `author_id`, scalar columns `name` and `age`, and one relationship. -/
def sampleInput : SerializerInput :=
  { attributeColumns := {"id", "name", "age", "author_id"},
    modelRelations := {"articles"},
    foreignKeys := {"author_id"},
    primaryKeyNames := {"id"},
    typeName := "person", primaryKey := "id",
    additionalAttributes := Option.none, only := Option.none,
    exclude := Option.none }

/-- The serializer state `__init__` computes for `sampleInput`. -/
def sampleState : SerializerState :=
  { typeName := "person", primaryKey := "id", columns := {"name", "age"},
    relations := {"articles"}, onlyInit := Option.none }

/-- A concrete manager context with links disabled. -/
def sampleManager : ManagerCtx :=
  { includeLinks := false, primaryKeyForModel := "id",
    selfUrl := fun _ => "", relSelfLink := fun _ _ => "",
    relRelatedLink := fun _ _ => "", relatedModelExists := fun _ => false,
    serializeRel := fun n => ("person", toString n) }

/-- A concrete instance of the sample person model. -/
def sampleInstance : PyInstance :=
  { attr := fun f => if f = "id" then .int 1
      else if f = "name" then .str "foo" else .none,
    rel := fun _ => .many [] }

/-- Witness for C6 at a concrete input: requesting fields
`name`, `articles` and the non-eligible `bogus` renders exactly the
requested-and-eligible fields. -/
theorem serialize_sparse_fields_witness :
    fieldKeys (serialize sampleManager sampleState sampleInstance
        (some {"name", "articles", "bogus"})) =
      ({"name", "articles", "bogus"} : Finset String) ∩
        (sampleState.columns ∪ sampleState.relations) :=
  (serialize_sparse_fields sampleInput sampleState (by decide) sampleManager
    sampleInstance {"name", "articles", "bogus"}).1

/-! ## Inclusion resolver (`get_inclusions_for_instances`, `get_inclusions`,
`flask_restless/helpers.py`)

Instances are identified by database handles (`Nat`); reading a relationship
attribute (`getattr` plus the `is_like_list` cardinality decision) is a
function of the environment.  The inclusion tree built from the dotted paths
is a finitely branching tree with string-keyed children in insertion order.
The generator `get_inclusions` maintains an explicit stack of
(sub-tree, frontier) jobs and unions every yielded level; the embedding
computes the same union by structural recursion over the tree, which visits
exactly the jobs the stack-driven loop visits. -/

/-- The inclusion tree: the nested ``Dict[str, dict]`` built by
`get_inclusions_for_instances`. -/
inductive ITree where
  | node (children : List (String × ITree))
  deriving Repr

/-- The children of an inclusion-tree node. -/
def ITree.children : ITree → List (String × ITree)
  | .node cs => cs

/-- The environment: every instance's relationship attributes, with the
cardinality decision of `is_like_list` folded into the constructor. -/
structure IncEnv where
  rel : Nat → String → RelLike

/-- One relationship read of the resolver loop: a falsy value (`None` or an
empty list) is skipped and contributes nothing; a list-like value contributes
its elements; a to-one value contributes its single instance. -/
def fetchRel (env : IncEnv) (i : Nat) (k : String) : Finset Nat :=
  match env.rel i k with
  | .many xs => xs.toFinset
  | .one (some x) => {x}
  | .one Option.none => ∅

/-- The set `new_instances` collected for relationship `k` over a frontier of
instances. -/
def levelSet (env : IncEnv) (frontier : Finset Nat) (k : String) : Finset Nat :=
  frontier.biUnion (fun i => fetchRel env i k)

/-- Lookup of `current_tree.get(level)` among a node's children. -/
def lookupChild (cs : List (String × ITree)) (k : String) : Option ITree :=
  (cs.find? (fun p => p.1 = k)).map (fun p => p.2)

/-- Dictionary assignment `current_tree[level] = subtree`: replace the value
at an existing key in place, or append a new key at the end. -/
def setChild : List (String × ITree) → String → ITree → List (String × ITree)
  | [], k, t => [(k, t)]
  | (k0, s0) :: rest, k, t =>
      if k0 = k then (k, t) :: rest else (k0, s0) :: setChild rest k t

/-- Inserting one split path into the inclusion tree: the net effect of the
per-level ``current_tree[level] = current_tree.get(level, {})`` loop of
`get_inclusions_for_instances`. -/
def insertPath : ITree → List String → ITree
  | t, [] => t
  | .node cs, k :: rest =>
      let sub := (lookupChild cs k).getD (.node [])
      .node (setChild cs k (insertPath sub rest))

/-- Embedding of ``path.split('.')``. -/
def splitDotsAux : List Char → List Char → List String
  | [], acc => [String.mk acc.reverse]
  | c :: rest, acc =>
      if c = '.' then String.mk acc.reverse :: splitDotsAux rest []
      else splitDotsAux rest (c :: acc)

/-- Embedding of Python ``'a.b.c'.split('.')``. -/
def splitDots (s : String) : List String :=
  splitDotsAux s.data []

/-- The tree-building loop of `get_inclusions_for_instances`. -/
def buildTree (paths : List (List String)) : ITree :=
  paths.foldl insertPath (.node [])

mutual

/-- Embedding of the generator `get_inclusions`: the union of the
`new_instances` sets yielded for every tree node processed, where a node's
subtree is processed on the frontier it produced, and only when both the
subtree and the frontier are nonempty (truthy). -/
def getInclusions (env : IncEnv) : ITree → Finset Nat → Finset Nat
  | .node cs, frontier => getInclusionsList env cs frontier

/-- The per-level loop of `get_inclusions` over the children of one node. -/
def getInclusionsList (env : IncEnv) :
    List (String × ITree) → Finset Nat → Finset Nat
  | [], _ => ∅
  | (k, sub) :: rest, frontier =>
      let s := levelSet env frontier k
      (s ∪ (if sub.children.isEmpty = false ∧ s.Nonempty then getInclusions env sub s else ∅)) ∪
        getInclusionsList env rest frontier

end

/-- Embedding of `get_inclusions_for_instances`: build the tree from the
dotted paths and union every set the generator yields. -/
def get_inclusions_for_instances (env : IncEnv) (include_ : List String)
    (instances : Finset Nat) : Finset Nat :=
  getInclusions env (buildTree (include_.map splitDots)) instances

/-- The frontier reached from a root set by following a (split) relationship
path, level by level. -/
def reach (env : IncEnv) (frontier : Finset Nat) : List String → Finset Nat
  | [] => frontier
  | k :: rest => reach env (levelSet env frontier k) rest

/-- The union of the frontiers reached at every level of one path: the
instances a single dotted path makes eligible for the compound document,
intermediate levels included. -/
def pathLevels (env : IncEnv) (frontier : Finset Nat) : List String → Finset Nat
  | [] => ∅
  | k :: rest =>
      let s := levelSet env frontier k
      s ∪ pathLevels env s rest

/-- The union of `pathLevels` over a list of split paths. -/
def allPathLevels (env : IncEnv) (frontier : Finset Nat)
    (paths : List (List String)) : Finset Nat :=
  paths.foldr (fun p acc => pathLevels env frontier p ∪ acc) ∅

/-- An empty frontier yields an empty level. -/
theorem levelSet_empty (env : IncEnv) (k : String) :
    levelSet env ∅ k = ∅ := by
  simp [levelSet]

/-- An empty frontier reaches nothing along any path. -/
theorem pathLevels_empty (env : IncEnv) :
    ∀ p : List String, pathLevels env ∅ p = ∅ := by
  intro p
  induction p with
  | nil => rfl
  | cons k rest ih =>
      simp [pathLevels, levelSet_empty, ih]

/-- The resolver loop contributes nothing on an empty frontier. -/
theorem getInclusionsList_empty (env : IncEnv) :
    ∀ cs : List (String × ITree), getInclusionsList env cs ∅ = ∅ := by
  intro cs
  induction cs with
  | nil => rfl
  | cons p rest ih =>
      obtain ⟨k, sub⟩ := p
      simp [getInclusionsList, levelSet_empty, ih]

/-- The contribution of one child to the resolver loop. -/
def childContrib (env : IncEnv) (k : String) (sub : ITree) (f : Finset Nat) :
    Finset Nat :=
  levelSet env f k ∪
    (if sub.children.isEmpty = false ∧ (levelSet env f k).Nonempty then
      getInclusions env sub (levelSet env f k) else ∅)

/-- The resolver loop is the union of child contributions. -/
theorem getInclusionsList_cons (env : IncEnv) (k : String) (sub : ITree)
    (rest : List (String × ITree)) (f : Finset Nat) :
    getInclusionsList env ((k, sub) :: rest) f =
      childContrib env k sub f ∪ getInclusionsList env rest f := rfl

/-- Splicing two child lists splits the resolver loop. -/
theorem getInclusionsList_append (env : IncEnv) (f : Finset Nat) :
    ∀ xs ys : List (String × ITree),
      getInclusionsList env (xs ++ ys) f =
        getInclusionsList env xs f ∪ getInclusionsList env ys f := by
  intro xs ys
  induction xs with
  | nil => simp [getInclusionsList]
  | cons p rest ih =>
      obtain ⟨k, sub⟩ := p
      show getInclusionsList env ((k, sub) :: (rest ++ ys)) f = _
      rw [getInclusionsList_cons, getInclusionsList_cons]
      have ih2 : getInclusionsList env (rest ++ ys) f =
          getInclusionsList env rest f ∪ getInclusionsList env ys f := ih
      rw [ih2]
      exact (Finset.union_assoc _ _ _).symm

/-- Inserting a nonempty path leaves a node with at least one child. -/
theorem insertPath_children_ne (t : ITree) (k : String) (rest : List String) :
    ((insertPath t (k :: rest)).children.isEmpty) = false := by
  obtain ⟨cs⟩ := t
  rw [insertPath]
  cases cs with
  | nil => rfl
  | cons p rest0 =>
      obtain ⟨k0, s0⟩ := p
      rw [ITree.children]
      rw [setChild]
      by_cases h : k0 = k <;> simp [h]

/-- How one child's contribution changes when a path is inserted below it,
assuming the insertion lemma for the path tail. -/
theorem childContrib_insert (env : IncEnv) (k : String) (rest : List String)
    (sub : ITree) (f : Finset Nat)
    (IH : ∀ (t : ITree) (g : Finset Nat),
      getInclusions env (insertPath t rest) g =
        getInclusions env t g ∪ pathLevels env g rest) :
    childContrib env k (insertPath sub rest) f =
      childContrib env k sub f ∪ pathLevels env f (k :: rest) := by
  have hpl : pathLevels env f (k :: rest) =
      levelSet env f k ∪ pathLevels env (levelSet env f k) rest := rfl
  by_cases hs : (levelSet env f k).Nonempty
  · cases rest with
    | nil =>
        rw [insertPath]
        rw [hpl, pathLevels]
        unfold childContrib
        ext a
        simp only [Finset.mem_union]
        tauto
    | cons k2 r2 =>
        have hne := insertPath_children_ne sub k2 r2
        unfold childContrib
        rw [if_pos ⟨hne, hs⟩, IH sub (levelSet env f k), hpl]
        by_cases hc : sub.children.isEmpty = false
        · rw [if_pos ⟨hc, hs⟩]
          ext a
          simp only [Finset.mem_union]
          tauto
        · rw [if_neg (fun h => hc h.1)]
          have hnil : sub = .node [] := by
            obtain ⟨cs⟩ := sub
            cases cs with
            | nil => rfl
            | cons p r =>
                exfalso
                exact hc rfl
          rw [hnil]
          rw [getInclusions, getInclusionsList]
          ext a
          simp only [Finset.mem_union, Finset.not_mem_empty]
          tauto
  · rw [Finset.not_nonempty_iff_eq_empty] at hs
    unfold childContrib
    rw [hs, hpl, hs, pathLevels_empty]
    simp

/-- The contribution of a node with no children is just its level set. -/
theorem childContrib_leaf (env : IncEnv) (k : String) (f : Finset Nat) :
    childContrib env k (.node []) f = levelSet env f k := by
  unfold childContrib
  rw [if_neg]
  · simp
  · intro h
    exact Bool.noConfusion h.1

/-- Pushing a path insertion through the child list of a node, assuming the
insertion lemma for the path tail. -/
theorem setChild_insert (env : IncEnv) (k : String) (rest : List String)
    (IH : ∀ (t : ITree) (g : Finset Nat),
      getInclusions env (insertPath t rest) g =
        getInclusions env t g ∪ pathLevels env g rest) :
    ∀ (cs : List (String × ITree)) (f : Finset Nat),
      getInclusionsList env
          (setChild cs k (insertPath ((lookupChild cs k).getD (.node [])) rest)) f =
        getInclusionsList env cs f ∪ pathLevels env f (k :: rest) := by
  intro cs
  induction cs with
  | nil =>
      intro f
      show getInclusionsList env [(k, insertPath (.node []) rest)] f = _
      rw [getInclusionsList_cons env k _ [] f,
        childContrib_insert env k rest (.node []) f IH, childContrib_leaf]
      have hsub : levelSet env f k ⊆ pathLevels env f (k :: rest) := by
        rw [pathLevels]
        exact Finset.subset_union_left
      ext a
      have hmem := @hsub a
      simp only [getInclusionsList, Finset.mem_union, Finset.not_mem_empty] at *
      tauto
  | cons p0 cs0 ihcs =>
      intro f
      obtain ⟨k0, sub0⟩ := p0
      by_cases hk : k0 = k
      · subst hk
        have hlook : lookupChild ((k0, sub0) :: cs0) k0 = some sub0 := by
          simp [lookupChild]
        rw [hlook]
        have hset : setChild ((k0, sub0) :: cs0) k0
            (insertPath ((some sub0).getD (.node [])) rest) =
            (k0, insertPath sub0 rest) :: cs0 := by
          rw [setChild, if_pos rfl]
          rfl
        rw [hset]
        rw [getInclusionsList_cons, getInclusionsList_cons,
          childContrib_insert env k0 rest sub0 f IH]
        ext a
        simp only [Finset.mem_union]
        tauto
      · have hlook : lookupChild ((k0, sub0) :: cs0) k = lookupChild cs0 k := by
          simp [lookupChild, List.find?_cons, hk]
        rw [hlook]
        have hset : setChild ((k0, sub0) :: cs0) k
            (insertPath ((lookupChild cs0 k).getD (.node [])) rest) =
            (k0, sub0) ::
              setChild cs0 k (insertPath ((lookupChild cs0 k).getD (.node [])) rest) := by
          rw [setChild, if_neg hk]
        rw [hset]
        rw [getInclusionsList_cons, getInclusionsList_cons, ihcs f]
        ext a
        simp only [Finset.mem_union]
        tauto

/-- Key insertion lemma: running the resolver on a tree with one more path
inserted adds exactly the per-level frontiers of that path. -/
theorem getInclusions_insertPath (env : IncEnv) :
    ∀ (p : List String) (t : ITree) (f : Finset Nat),
      getInclusions env (insertPath t p) f =
        getInclusions env t f ∪ pathLevels env f p := by
  intro p
  induction p with
  | nil =>
      intro t f
      obtain ⟨cs⟩ := t
      rw [insertPath, pathLevels]
      simp
  | cons k rest IH =>
      intro t f
      obtain ⟨cs⟩ := t
      show getInclusions env
          (.node (setChild cs k (insertPath ((lookupChild cs k).getD (.node [])) rest))) f = _
      rw [getInclusions, getInclusions]
      exact setChild_insert env k rest IH cs f

/-- Folding the insertion over a path list, starting from any tree. -/
theorem getInclusions_foldl (env : IncEnv) :
    ∀ (paths : List (List String)) (t : ITree) (f : Finset Nat),
      getInclusions env (paths.foldl insertPath t) f =
        getInclusions env t f ∪ allPathLevels env f paths := by
  intro paths
  induction paths with
  | nil =>
      intro t f
      simp [allPathLevels]
  | cons p ps IH =>
      intro t f
      show getInclusions env (ps.foldl insertPath (insertPath t p)) f = _
      rw [IH (insertPath t p) f, getInclusions_insertPath env p t f]
      show _ = getInclusions env t f ∪ (pathLevels env f p ∪ allPathLevels env f ps)
      ext a
      simp only [Finset.mem_union]
      tauto

/-- The resolver on the built tree is exactly the union of the per-level
frontiers of every given path. -/
theorem getInclusions_buildTree (env : IncEnv) (paths : List (List String))
    (f : Finset Nat) :
    getInclusions env (buildTree paths) f = allPathLevels env f paths := by
  rw [buildTree, getInclusions_foldl env paths (.node []) f]
  rw [getInclusions, getInclusionsList]
  simp

/-- Reaching along an appended path is reaching in two stages. -/
theorem reach_append (env : IncEnv) :
    ∀ (q r : List String) (f : Finset Nat),
      reach env f (q ++ r) = reach env (reach env f q) r := by
  intro q
  induction q with
  | nil => intro r f; rfl
  | cons k q0 IH => intro r f; exact IH r (levelSet env f k)

/-- An empty frontier reaches nothing. -/
theorem reach_empty (env : IncEnv) :
    ∀ r : List String, reach env ∅ r = ∅ := by
  intro r
  induction r with
  | nil => rfl
  | cons k r0 IH =>
      show reach env (levelSet env ∅ k) r0 = ∅
      rw [levelSet_empty, IH]

/-- The frontier reached after any positive number of levels of a path is
contained in the union of that path's level frontiers. -/
theorem reach_take_subset_pathLevels (env : IncEnv) :
    ∀ (p : List String) (n : Nat) (f : Finset Nat), 0 < n → n ≤ p.length →
      reach env f (p.take n) ⊆ pathLevels env f p := by
  intro p
  induction p with
  | nil =>
      intro n f h1 h2
      exact absurd (Nat.lt_of_lt_of_le h1 h2) (by simp)
  | cons k rest IH =>
      intro n f h1 h2
      match n, h1 with
      | 1, _ =>
          show reach env (levelSet env f k) [] ⊆ _
          rw [pathLevels]
          exact Finset.subset_union_left
      | (m + 2), _ =>
          show reach env (levelSet env f k) (rest.take (m + 1)) ⊆ _
          rw [pathLevels]
          refine Finset.Subset.trans ?_ Finset.subset_union_right
          exact IH (m + 1) (levelSet env f k) (Nat.succ_pos m)
            (Nat.le_of_succ_le_succ h2)

/-- Each path's level union is inside the union over all paths. -/
theorem pathLevels_subset_allPathLevels (env : IncEnv) (f : Finset Nat) :
    ∀ (paths : List (List String)) (p : List String), p ∈ paths →
      pathLevels env f p ⊆ allPathLevels env f paths := by
  intro paths
  induction paths with
  | nil => intro p hp; exact absurd hp (List.not_mem_nil p)
  | cons q ps IH =>
      intro p hp
      rcases List.mem_cons.mp hp with h | h
      · rw [h, allPathLevels]
        exact Finset.subset_union_left
      · refine Finset.Subset.trans (IH p h) ?_
        rw [allPathLevels]
        exact Finset.subset_union_right

/-- C7: the inclusion resolver's result is exactly the union, over every
include path and every level of that path, of the set of instances reached at
that level; in particular every instance reached at every intermediate level
of each dotted path is in the result (not only the terminal level), and a
null to-one relationship or empty to-many relationship along a path raises no
error (the resolver is total) and contributes no instances to that branch
(once a level is empty, nothing further along that path is reached or
included). -/
theorem inclusion_resolver_levels (env : IncEnv) (include_ : List String)
    (instances : Finset Nat) :
    get_inclusions_for_instances env include_ instances =
      allPathLevels env instances (include_.map splitDots) ∧
    (∀ p, p ∈ include_ → ∀ n, 0 < n → n ≤ (splitDots p).length →
      reach env instances ((splitDots p).take n) ⊆
        get_inclusions_for_instances env include_ instances) ∧
    (∀ (q r : List String), reach env instances q = ∅ →
      reach env instances (q ++ r) = ∅) := by
  have hmain := getInclusions_buildTree env (include_.map splitDots) instances
  refine ⟨hmain, ?_, ?_⟩
  · intro p hp n hn hlen
    have hsub := reach_take_subset_pathLevels env (splitDots p) n instances hn hlen
    have hmem := pathLevels_subset_allPathLevels env instances
      (include_.map splitDots) (splitDots p) (List.mem_map_of_mem splitDots hp)
    rw [get_inclusions_for_instances, hmain]
    exact Finset.Subset.trans hsub hmem
  · intro q r hq
    rw [reach_append env q r instances, hq, reach_empty]

/-- A concrete object graph: instance 1 has a to-one relationship `a` to
instance 2; instance 2 has a to-many relationship `b` to instances 3 and 4;
everything else is a null to-one relationship. -/
def sampleIncEnv : IncEnv :=
  { rel := fun i k =>
      if i = 1 && k = "a" then .one (some 2)
      else if i = 2 && k = "b" then .many [3, 4]
      else .one Option.none }

/-- Witness for C7 at a concrete input: for the include path "a.b" from root
instance 1, the intermediate frontier (instance 2, reached after one level)
is contained in the resolved inclusion set. -/
theorem inclusion_resolver_levels_witness :
    reach sampleIncEnv {1} ((splitDots "a.b").take 1) ⊆
      get_inclusions_for_instances sampleIncEnv ["a.b"] {1} :=
  (inclusion_resolver_levels sampleIncEnv ["a.b"] {1}).2.1 "a.b"
    (by simp) 1 (by decide) (by decide)

/-! ## Default deserializer (`DefaultDeserializer.deserialize`,
`DefaultRelationshipDeserializer.deserialize`,
`flask_restless/serialization.py`)

A parsed JSON document is a `JVal`; Python dicts are association lists in
insertion order with unique keys, and the dict operations the source uses
(`in`, `[]`, `pop`, `update`, assignment) are the corresponding list
operations.  The deserializer mutates the dict bound to `document['data']`
in place (`pop`, `update`); the embedding therefore returns, next to the
result, the state of the document after the call.  Python-level `TypeError`s
raised by dict operations on non-mapping values are embedded as the
distinguished error `DErr.pyError`. -/

/-- A parsed JSON value. -/
inductive JVal where
  | null
  | str (s : String)
  | num (n : Int)
  | boolean (b : Bool)
  | obj (fields : List (String × JVal))
  | arr (elems : List JVal)
  deriving Repr

mutual

/-- Decidable equality of JSON values (manual: the nested inductive defeats
the deriving handler). -/
def jvalDecEq : (a b : JVal) → Decidable (a = b)
  | .null, .null => .isTrue rfl
  | .str a, .str b =>
      if h : a = b then .isTrue (by rw [h])
      else .isFalse (by intro hc; injection hc; contradiction)
  | .num a, .num b =>
      if h : a = b then .isTrue (by rw [h])
      else .isFalse (by intro hc; injection hc; contradiction)
  | .boolean a, .boolean b =>
      if h : a = b then .isTrue (by rw [h])
      else .isFalse (by intro hc; injection hc; contradiction)
  | .obj a, .obj b =>
      match jfieldsDecEq a b with
      | .isTrue h => .isTrue (by rw [h])
      | .isFalse h => .isFalse (by intro hc; injection hc; contradiction)
  | .arr a, .arr b =>
      match jlistDecEq a b with
      | .isTrue h => .isTrue (by rw [h])
      | .isFalse h => .isFalse (by intro hc; injection hc; contradiction)
  | .null, .str _ => .isFalse (fun h => JVal.noConfusion h)
  | .null, .num _ => .isFalse (fun h => JVal.noConfusion h)
  | .null, .boolean _ => .isFalse (fun h => JVal.noConfusion h)
  | .null, .obj _ => .isFalse (fun h => JVal.noConfusion h)
  | .null, .arr _ => .isFalse (fun h => JVal.noConfusion h)
  | .str _, .null => .isFalse (fun h => JVal.noConfusion h)
  | .str _, .num _ => .isFalse (fun h => JVal.noConfusion h)
  | .str _, .boolean _ => .isFalse (fun h => JVal.noConfusion h)
  | .str _, .obj _ => .isFalse (fun h => JVal.noConfusion h)
  | .str _, .arr _ => .isFalse (fun h => JVal.noConfusion h)
  | .num _, .null => .isFalse (fun h => JVal.noConfusion h)
  | .num _, .str _ => .isFalse (fun h => JVal.noConfusion h)
  | .num _, .boolean _ => .isFalse (fun h => JVal.noConfusion h)
  | .num _, .obj _ => .isFalse (fun h => JVal.noConfusion h)
  | .num _, .arr _ => .isFalse (fun h => JVal.noConfusion h)
  | .boolean _, .null => .isFalse (fun h => JVal.noConfusion h)
  | .boolean _, .str _ => .isFalse (fun h => JVal.noConfusion h)
  | .boolean _, .num _ => .isFalse (fun h => JVal.noConfusion h)
  | .boolean _, .obj _ => .isFalse (fun h => JVal.noConfusion h)
  | .boolean _, .arr _ => .isFalse (fun h => JVal.noConfusion h)
  | .obj _, .null => .isFalse (fun h => JVal.noConfusion h)
  | .obj _, .str _ => .isFalse (fun h => JVal.noConfusion h)
  | .obj _, .num _ => .isFalse (fun h => JVal.noConfusion h)
  | .obj _, .boolean _ => .isFalse (fun h => JVal.noConfusion h)
  | .obj _, .arr _ => .isFalse (fun h => JVal.noConfusion h)
  | .arr _, .null => .isFalse (fun h => JVal.noConfusion h)
  | .arr _, .str _ => .isFalse (fun h => JVal.noConfusion h)
  | .arr _, .num _ => .isFalse (fun h => JVal.noConfusion h)
  | .arr _, .boolean _ => .isFalse (fun h => JVal.noConfusion h)
  | .arr _, .obj _ => .isFalse (fun h => JVal.noConfusion h)

/-- Decidable equality of JSON object field lists. -/
def jfieldsDecEq : (a b : List (String × JVal)) → Decidable (a = b)
  | [], [] => .isTrue rfl
  | [], _ :: _ => .isFalse (fun h => List.noConfusion h)
  | _ :: _, [] => .isFalse (fun h => List.noConfusion h)
  | (k1, v1) :: r1, (k2, v2) :: r2 =>
      if hk : k1 = k2 then
        match jvalDecEq v1 v2 with
        | .isTrue hv =>
            match jfieldsDecEq r1 r2 with
            | .isTrue hr => .isTrue (by rw [hk, hv, hr])
            | .isFalse hr =>
                .isFalse (by intro hc; injection hc; contradiction)
        | .isFalse hv =>
            .isFalse (by
              intro hc
              injection hc with h1 h2
              injection h1 with ha hb
              exact hv hb)
      else
        .isFalse (by
          intro hc
          injection hc with h1 h2
          injection h1 with ha hb
          exact hk ha)

/-- Decidable equality of JSON array element lists. -/
def jlistDecEq : (a b : List JVal) → Decidable (a = b)
  | [], [] => .isTrue rfl
  | [], _ :: _ => .isFalse (fun h => List.noConfusion h)
  | _ :: _, [] => .isFalse (fun h => List.noConfusion h)
  | v1 :: r1, v2 :: r2 =>
      match jvalDecEq v1 v2 with
      | .isTrue hv =>
          match jlistDecEq r1 r2 with
          | .isTrue hr => .isTrue (by rw [hv, hr])
          | .isFalse hr => .isFalse (by intro hc; injection hc; contradiction)
      | .isFalse hv => .isFalse (by intro hc; injection hc; contradiction)

end

instance : DecidableEq JVal := jvalDecEq

/-- Python `d[k]` (first match; dict keys are unique). -/
def dlookup : List (String × JVal) → String → Option JVal
  | [], _ => Option.none
  | (k0, v) :: rest, k => if k0 = k then some v else dlookup rest k

/-- Python `k in d`. -/
def dcontains (d : List (String × JVal)) (k : String) : Bool :=
  (dlookup d k).isSome

/-- Python `d.pop(k)`: the dict with the entry at `k` removed. -/
def dremove : List (String × JVal) → String → List (String × JVal)
  | [], _ => []
  | (k0, v) :: rest, k => if k0 = k then rest else (k0, v) :: dremove rest k

/-- Python `d[k] = v`: replace in place or append at the end. -/
def dset : List (String × JVal) → String → JVal → List (String × JVal)
  | [], k, v => [(k, v)]
  | (k0, v0) :: rest, k, v =>
      if k0 = k then (k, v) :: rest else (k0, v0) :: dset rest k v

/-- Python `d.update(add)`: assign every entry of `add` in order. -/
def dupdate (d add : List (String × JVal)) : List (String × JVal) :=
  add.foldl (fun acc kv => dset acc kv.1 kv.2) d

/-- A dynamic Python value as stored in an exception attribute: a string, a
parsed JSON value, or None. -/
inductive PyV where
  | s (v : String)
  | j (v : JVal)
  | none
  deriving Repr, DecidableEq

/-- Python `x is None` on such a value (JSON `null` parses to `None`). -/
def isPyNone : PyV → Bool
  | .none => true
  | .j .null => true
  | _ => false

/-- Python `str()` of a parsed JSON value (only strings flow into the error
details of interest; the other renderings are the evident ones). -/
def jvalStr : JVal → String
  | .null => "None"
  | .str s => s
  | .num n => toString n
  | .boolean b => if b then "True" else "False"
  | .obj _ => "object"
  | .arr _ => "list"

/-- Python `str()` as used by `str.format` on an exception attribute. -/
def pyVStr : PyV → String
  | .s v => v
  | .none => "None"
  | .j v => jvalStr v

/-- The `detail` string computed by `ConflictingType.__init__` from its three
positional arguments `expected_type`, `given_type`, `relation_name`. -/
def conflictingTypeDetail (expectedType givenType relationName : PyV) : String :=
  if isPyNone relationName then
    "expected type \"" ++ pyVStr expectedType ++ "\" but got type \"" ++
      pyVStr givenType ++ "\""
  else
    "expected type \"" ++ pyVStr expectedType ++ "\" but got type \"" ++
      pyVStr givenType ++ "\" in linkage object for relationship \"" ++
      pyVStr relationName ++ "\""

/-- The `detail` string computed by `MissingInformation.__init__`. -/
def missingDetail (element : String) (relationName : Option String) : String :=
  match relationName with
  | Option.none => "missing \"" ++ element ++ "\" element"
  | some r =>
      "missing \"" ++ element ++ "\" element in linkage object for relationship \"" ++
        r ++ "\""

/-- The deserialization exceptions of `flask_restless/serialization.py`, with
the constructor arguments of each raise site.  The three arguments of
`conflictingType` are the three positional parameters of
`ConflictingType.__init__` in order: `expected_type`, `given_type`,
`relation_name`.  `pyError` stands for a Python-level `TypeError` from a dict
operation on a non-mapping value. -/
inductive DErr where
  | missingData (relationName : Option String)
  | missingID (relationName : Option String)
  | missingType (relationName : Option String)
  | clientGeneratedIDNotAllowed
  | conflictingType (expectedType givenType relationName : PyV)
  | unknownRelationship (field : String)
  | unknownAttribute (field : String)
  | pyError
  deriving Repr, DecidableEq

/-- The `detail` attribute of each deserialization exception. -/
def derrDetail : DErr → String
  | .missingData r => missingDetail "data" r
  | .missingID r => missingDetail "id" r
  | .missingType r => missingDetail "type" r
  | .clientGeneratedIDNotAllowed => "Server does not allow client-generated IDS"
  | .conflictingType e g r => conflictingTypeDetail e g r
  | .unknownRelationship f => "model has no relationship \"" ++ f ++ "\""
  | .unknownAttribute f => "model has no attribute \"" ++ f ++ "\""
  | .pyError => "TypeError"

/-- The SQLAlchemy column type classification that `get_field_type` returns
for temporal fields; `Option.none` for every other field. -/
inductive FieldKind where
  | date
  | time
  | datetime
  | interval
  deriving Repr, DecidableEq

/-- A Python value stored on the constructed model instance: either the JSON
value passed through, or the result of the temporal conversion
(`dateutil.parser.parse` and its date/time components are external library
calls, embedded symbolically by the string they parse; `nowFunc` is the
server-side `sqlalchemy.func` current-time sentinel). -/
inductive PyOb where
  | fromJson (v : JVal)
  | null
  | parsedDatetime (s : String)
  | parsedDate (s : String)
  | parsedTime (s : String)
  | nowFunc (marker : String)
  | timedelta (seconds : Int)
  deriving Repr, DecidableEq

/-- The `CURRENT_TIME_MARKERS` constant of `flask_restless/helpers.py`. -/
def CURRENT_TIME_MARKERS : List String :=
  ["CURRENT_TIMESTAMP", "CURRENT_DATE", "LOCALTIMESTAMP"]

/-- Python `value.strip() == ''`, computed over the character list. -/
def isBlank (s : String) : Bool :=
  s.data.all (fun c => c == ' ' || c == '\t' || c == '\n' || c == '\r')

/-- Embedding of `string_to_datetime` (`flask_restless/helpers.py`): `None`
passes through; on a date/time/datetime column a string is parsed (empty
string to `None`, a current-time marker to the server-side now sentinel) and
a non-string raises a Python-level error (`.strip()` on a non-string); on an
interval column an integer becomes a timedelta; everything else passes
through unchanged. -/
def string_to_datetime (kind : Option FieldKind) (v : JVal) : Except DErr PyOb :=
  match v with
  | .null => .ok (.fromJson .null)
  | v =>
      match kind with
      | some .date =>
          match v with
          | .str s =>
              if isBlank s then .ok .null
              else if s ∈ CURRENT_TIME_MARKERS then .ok (.nowFunc s)
              else .ok (.parsedDate s)
          | _ => .error .pyError
      | some .time =>
          match v with
          | .str s =>
              if isBlank s then .ok .null
              else if s ∈ CURRENT_TIME_MARKERS then .ok (.nowFunc s)
              else .ok (.parsedTime s)
          | _ => .error .pyError
      | some .datetime =>
          match v with
          | .str s =>
              if isBlank s then .ok .null
              else if s ∈ CURRENT_TIME_MARKERS then .ok (.nowFunc s)
              else .ok (.parsedDatetime s)
          | _ => .error .pyError
      | some .interval =>
          match v with
          | .num n => .ok (.timedelta n)
          | _ => .ok (.fromJson v)
      | Option.none => .ok (.fromJson v)

/-- Embedding of `strings_to_datetimes` (`flask_restless/helpers.py`): a new
dictionary with every mapping converted, the `type` and `links` keys
dropped. -/
def strings_to_datetimes (fieldKind : String → Option FieldKind) :
    List (String × JVal) → Except DErr (List (String × PyOb))
  | [] => .ok []
  | (k, v) :: rest =>
      if k = "type" ∨ k = "links" then strings_to_datetimes fieldKind rest
      else do
        let pv ← string_to_datetime (fieldKind k) v
        let r ← strings_to_datetimes fieldKind rest
        .ok ((k, pv) :: r)

/-- A `DefaultRelationshipDeserializer` for one relationship: the related
model's collection name (`self.type_name`), the relationship name, and
`get_by` on the session for the related model (`None` when no persisted
instance has the given id). -/
structure RelDeserializer where
  typeName : String
  relationName : Option String
  lookup : JVal → Option Nat

/-- The value a relationship deserializer produces: a resolved instance
(`None` when the id matched nothing) for a to-one linkage, or the list of
recursive results for a to-many linkage. -/
inductive RelValue where
  | inst (x : Option Nat)
  | list (xs : List RelValue)
  deriving Repr

mutual

/-- Decidable equality for relationship values (nested inductive). -/
def relValueDecEq : (a b : RelValue) → Decidable (a = b)
  | .inst a, .inst b =>
      if h : a = b then .isTrue (by rw [h])
      else .isFalse (by intro hc; injection hc; contradiction)
  | .list a, .list b =>
      match relValueListDecEq a b with
      | .isTrue h => .isTrue (by rw [h])
      | .isFalse h => .isFalse (by intro hc; injection hc; contradiction)
  | .inst _, .list _ => .isFalse (fun h => RelValue.noConfusion h)
  | .list _, .inst _ => .isFalse (fun h => RelValue.noConfusion h)

/-- Decidable equality for lists of relationship values. -/
def relValueListDecEq : (a b : List RelValue) → Decidable (a = b)
  | [], [] => .isTrue rfl
  | [], _ :: _ => .isFalse (fun h => List.noConfusion h)
  | _ :: _, [] => .isFalse (fun h => List.noConfusion h)
  | v1 :: r1, v2 :: r2 =>
      match relValueDecEq v1 v2 with
      | .isTrue hv =>
          match relValueListDecEq r1 r2 with
          | .isTrue hr => .isTrue (by rw [hv, hr])
          | .isFalse hr => .isFalse (by intro hc; injection hc; contradiction)
      | .isFalse hv => .isFalse (by intro hc; injection hc; contradiction)

end

instance : DecidableEq RelValue := relValueDecEq

/-- Conversion of the optional relationship name into the dynamic value
passed positionally to `ConflictingType`. -/
def optPyV : Option String → PyV
  | Option.none => .none
  | some s => .s s

mutual

/-- Embedding of `DefaultRelationshipDeserializer.deserialize`: a list
recurses element-wise; anything else is a to-one linkage object that must
carry `id` and `type`, whose `type` must equal the related collection name
(NOTE: the source passes `(self.relation_name, self.type_name, type_)`
positionally to `ConflictingType(expected_type, given_type, relation_name)`),
and whose instance is fetched with `get_by` (yielding `None` when no
persisted instance matches). -/
def relDeserialize (rd : RelDeserializer) : JVal → Except DErr RelValue
  | .arr elems =>
      match relDeserializeList rd elems with
      | .ok vs => .ok (.list vs)
      | .error e => .error e
  | .obj fields =>
      if dcontains fields "id" = false then .error (.missingID rd.relationName)
      else if dcontains fields "type" = false then .error (.missingType rd.relationName)
      else
        let type_ := (dlookup fields "type").getD .null
        if type_ ≠ .str rd.typeName then
          .error (.conflictingType (optPyV rd.relationName) (.s rd.typeName) (.j type_))
        else
          let id_ := (dlookup fields "id").getD .null
          .ok (.inst (rd.lookup id_))
  | _ => .error .pyError

/-- Element-wise recursion of `list(map(self.deserialize, data))`. -/
def relDeserializeList (rd : RelDeserializer) : List JVal → Except DErr (List RelValue)
  | [] => .ok []
  | x :: rest =>
      match relDeserialize rd x with
      | .ok v =>
          match relDeserializeList rd rest with
          | .ok vs => .ok (v :: vs)
          | .error e => .error e
      | .error e => .error e

end

/-- What the deserializer consults about one relationship of the model:
`collection_name(get_related_model(model, name))` and `get_by` on the related
model (with its registered primary key). -/
structure RelInfo where
  relatedTypeName : String
  lookup : JVal → Option Nat

/-- What the deserializer consults about the target model: its registered
collection name, `has_field` (existing and, for hybrid properties, settable),
`get_related_model` composed with the related model's registration data, and
`get_field_type` for the temporal conversion. -/
structure ModelCtx where
  collectionName : String
  hasField : String → Bool
  related : String → Option RelInfo
  fieldKind : String → Option FieldKind

/-- A `DefaultDeserializer`: the model context and the
`allow_client_generated_ids` flag. -/
structure DeserializerCtx where
  model : ModelCtx
  allowClientGeneratedIds : Bool

/-- The constructed model instance: the keyword arguments passed to
`self.model(**data)` and the relationship values assigned with `setattr`
afterwards, in order. -/
structure Instance where
  kwargs : List (String × PyOb)
  rels : List (String × RelValue)
  deriving Repr, DecidableEq

/-- The inner check of the field-validation loop over the keys under
`relationships`: the first key that is not a field of the model raises
`UnknownRelationship`. -/
def checkRelationshipKeys (m : ModelCtx) : List (String × JVal) → Option DErr
  | [] => Option.none
  | (relation, _) :: rest =>
      if m.hasField relation = false then some (.unknownRelationship relation)
      else checkRelationshipKeys m rest

/-- The inner check of the field-validation loop over the keys under
`attributes`: the first key that is not a field of the model raises
`UnknownAttribute`. -/
def checkAttributeKeys (m : ModelCtx) : List (String × JVal) → Option DErr
  | [] => Option.none
  | (attr0, _) :: rest =>
      if m.hasField attr0 = false then some (.unknownAttribute attr0)
      else checkAttributeKeys m rest

/-- The `for field in data` validation loop of
`DefaultDeserializer.deserialize`, iterating the keys of `data` (after
`type` was popped) and checking the keys under `relationships` and
`attributes`; iterating a non-mapping value is a Python-level error. -/
def checkFieldsAux (m : ModelCtx) (data : List (String × JVal)) :
    List (String × JVal) → Option DErr
  | [] => Option.none
  | (field, _) :: rest =>
      if field = "relationships" then
        match dlookup data "relationships" with
        | some (.obj rels) =>
            match checkRelationshipKeys m rels with
            | some e => some e
            | Option.none => checkFieldsAux m data rest
        | some _ => some .pyError
        | Option.none => checkFieldsAux m data rest
      else if field = "attributes" then
        match dlookup data "attributes" with
        | some (.obj attrs) =>
            match checkAttributeKeys m attrs with
            | some e => some e
            | Option.none => checkFieldsAux m data rest
        | some _ => some .pyError
        | Option.none => checkFieldsAux m data rest
      else checkFieldsAux m data rest

/-- The whole field-validation loop over `data`. -/
def checkFields (m : ModelCtx) (data : List (String × JVal)) : Option DErr :=
  checkFieldsAux m data data

/-- The `for link_name, link_object in links.items()` loop of
`DefaultDeserializer.deserialize`: each relationship entry must carry a
`data` key (else relationship-scoped `MissingData`), and its linkage is
resolved by the relationship deserializer built for the related model. -/
def deserializeLinks (m : ModelCtx) :
    List (String × JVal) → Except DErr (List (String × RelValue))
  | [] => .ok []
  | (linkName, linkObject) :: rest =>
      match linkObject with
      | .obj lofields =>
          if dcontains lofields "data" = false then
            .error (.missingData (some linkName))
          else
            let linkage := (dlookup lofields "data").getD .null
            match m.related linkName with
            | Option.none => .error .pyError
            | some info =>
                let rd : RelDeserializer :=
                  { typeName := info.relatedTypeName,
                    relationName := some linkName, lookup := info.lookup }
                match relDeserialize rd linkage with
                | .error e => .error e
                | .ok v =>
                    match deserializeLinks m rest with
                    | .error e => .error e
                    | .ok vs => .ok ((linkName, v) :: vs)
      | _ => .error .pyError

/-- The tail of `DefaultDeserializer.deserialize` after the links were
resolved: pop `attributes` and merge it into the top level, convert temporal
strings, construct the instance and assign the relationships.  Returns the
result together with the final state of the (mutated) document. -/
def deserializeTail (ctx : DeserializerCtx) (document : List (String × JVal))
    (links : List (String × RelValue)) (data2 : List (String × JVal)) :
    (Except DErr Instance) × List (String × JVal) :=
  match dlookup data2 "attributes" with
  | some (.obj attrs) =>
      let data3 := dupdate (dremove data2 "attributes") attrs
      match strings_to_datetimes ctx.model.fieldKind data3 with
      | .error e => (.error e, dset document "data" (.obj data3))
      | .ok kwargs =>
          (.ok { kwargs := kwargs, rels := links }, dset document "data" (.obj data3))
  | some _ =>
      -- `dict.update` on a non-mapping raises; the pop already happened.
      (.error .pyError, dset document "data" (.obj (dremove data2 "attributes")))
  | Option.none =>
      match strings_to_datetimes ctx.model.fieldKind data2 with
      | .error e => (.error e, dset document "data" (.obj data2))
      | .ok kwargs =>
          (.ok { kwargs := kwargs, rels := links }, dset document "data" (.obj data2))

/-- Embedding of `DefaultDeserializer.deserialize`.  The first component is
the returned instance or the raised exception; the second component is the
state of `document` after the call (the source pops `type`, `relationships`
and `attributes` out of `document['data']` and merges the attribute entries
into it, so the caller's document is mutated). -/
def deserialize (ctx : DeserializerCtx) (document : List (String × JVal)) :
    (Except DErr Instance) × List (String × JVal) :=
  if dcontains document "data" = false then
    (.error (.missingData Option.none), document)
  else
    match (dlookup document "data").getD .null with
    | .obj data0 =>
        if dcontains data0 "type" = false then
          (.error (.missingType Option.none), document)
        else if dcontains data0 "id" = true ∧ ctx.allowClientGeneratedIds = false then
          (.error .clientGeneratedIDNotAllowed, document)
        else
          let type_ := (dlookup data0 "type").getD .null
          let data1 := dremove data0 "type"
          if type_ ≠ .str ctx.model.collectionName then
            (.error (.conflictingType (.s ctx.model.collectionName) (.j type_) .none),
              dset document "data" (.obj data1))
          else
            match checkFields ctx.model data1 with
            | some e => (.error e, dset document "data" (.obj data1))
            | Option.none =>
                match dlookup data1 "relationships" with
                | some (.obj rels) =>
                    let data2 := dremove data1 "relationships"
                    match deserializeLinks ctx.model rels with
                    | .error e => (.error e, dset document "data" (.obj data2))
                    | .ok links => deserializeTail ctx document links data2
                | some _ =>
                    -- `.items()` on a non-mapping raises; the pop already happened.
                    (.error .pyError,
                      dset document "data" (.obj (dremove data1 "relationships")))
                | Option.none => deserializeTail ctx document [] data1
    | _ =>
        -- Membership testing on a non-mapping `data` raises a Python error.
        (.error .pyError, document)

/-- The entries under `relationships` in a data dict (empty when absent or
not a mapping). -/
def relEntries (d : List (String × JVal)) : List (String × JVal) :=
  match dlookup d "relationships" with
  | some (.obj rels) => rels
  | _ => []

/-- The entries under `attributes` in a data dict (empty when absent or not
a mapping). -/
def attrEntries (d : List (String × JVal)) : List (String × JVal) :=
  match dlookup d "attributes" with
  | some (.obj attrs) => attrs
  | _ => []

/-- The `relationships` value, when present, is a mapping. -/
def relShapeOk (d : List (String × JVal)) : Prop :=
  ∀ v, dlookup d "relationships" = some v → ∃ l, v = .obj l

/-- The `attributes` value, when present, is a mapping. -/
def attrShapeOk (d : List (String × JVal)) : Prop :=
  ∀ v, dlookup d "attributes" = some v → ∃ l, v = .obj l

/-- A key that is looked up successfully is present. -/
theorem dcontains_of_dlookup {d : List (String × JVal)} {k : String} {v : JVal}
    (h : dlookup d k = some v) : dcontains d k = true := by
  simp [dcontains, h]

/-- Removing one key leaves lookups of other keys unchanged. -/
theorem dlookup_dremove_ne (k k' : String) (hkk : k' ≠ k) :
    ∀ d : List (String × JVal), dlookup (dremove d k) k' = dlookup d k' := by
  intro d
  induction d with
  | nil => rfl
  | cons p rest ih =>
      obtain ⟨k0, v⟩ := p
      by_cases h0 : k0 = k
      · rw [dremove, if_pos h0, dlookup, if_neg (by rw [h0]; exact fun h => hkk h.symm)]
      · rw [dremove, if_neg h0]
        by_cases h1 : k0 = k'
        · rw [dlookup, if_pos h1, dlookup, if_pos h1]
        · rw [dlookup, if_neg h1, dlookup, if_neg h1, ih]

/-- A successful lookup exhibits an entry with that key. -/
theorem dlookup_some_mem {d : List (String × JVal)} {k : String} {v : JVal} :
    dlookup d k = some v → ∃ p, p ∈ d ∧ p.1 = k := by
  induction d with
  | nil => intro h; exact Option.noConfusion h
  | cons p rest ih =>
      obtain ⟨k0, v0⟩ := p
      intro h
      by_cases h0 : k0 = k
      · exact ⟨(k0, v0), List.mem_cons_self _ _, h0⟩
      · rw [dlookup, if_neg h0] at h
        obtain ⟨q, hq, hqk⟩ := ih h
        exact ⟨q, List.mem_cons_of_mem _ hq, hqk⟩

/-- Removing an absent key is the identity. -/
theorem dremove_absent {d : List (String × JVal)} {k : String}
    (h : dcontains d k = false) : dremove d k = d := by
  induction d with
  | nil => rfl
  | cons p rest ih =>
      obtain ⟨k0, v0⟩ := p
      by_cases h0 : k0 = k
      · exfalso
        rw [dcontains, dlookup, if_pos h0] at h
        exact Bool.noConfusion h
      · rw [dcontains, dlookup, if_neg h0] at h
        rw [dremove, if_neg h0, ih h]

/-- The relationship-key check succeeds exactly on all-known keys, and
otherwise names a genuinely unknown key. -/
theorem checkRelationshipKeys_spec (m : ModelCtx) :
    ∀ rels : List (String × JVal),
      (checkRelationshipKeys m rels = Option.none ∧
        ∀ p, p ∈ rels → m.hasField p.1 = true) ∨
      (∃ k, k ∈ rels.map Prod.fst ∧ m.hasField k = false ∧
        checkRelationshipKeys m rels = some (.unknownRelationship k)) := by
  intro rels
  induction rels with
  | nil => exact Or.inl ⟨rfl, fun p hp => absurd hp (List.not_mem_nil p)⟩
  | cons p rest ih =>
      obtain ⟨k0, v0⟩ := p
      by_cases h0 : m.hasField k0 = false
      · refine Or.inr ⟨k0, List.mem_cons_self _ _, h0, ?_⟩
        rw [checkRelationshipKeys, if_pos h0]
      · have h0t : m.hasField k0 = true := by
          cases h : m.hasField k0 with
          | false => exact absurd h h0
          | true => rfl
        rcases ih with ⟨hnone, hall⟩ | ⟨k, hk, hkf, hsome⟩
        · refine Or.inl ⟨?_, ?_⟩
          · rw [checkRelationshipKeys, if_neg h0, hnone]
          · intro q hq
            rcases List.mem_cons.mp hq with h | h
            · rw [h]; exact h0t
            · exact hall q h
        · refine Or.inr ⟨k, ?_, hkf, ?_⟩
          · exact List.mem_cons_of_mem _ hk
          · rw [checkRelationshipKeys, if_neg h0, hsome]

/-- The attribute-key check succeeds exactly on all-known keys, and
otherwise names a genuinely unknown key. -/
theorem checkAttributeKeys_spec (m : ModelCtx) :
    ∀ attrs : List (String × JVal),
      (checkAttributeKeys m attrs = Option.none ∧
        ∀ p, p ∈ attrs → m.hasField p.1 = true) ∨
      (∃ k, k ∈ attrs.map Prod.fst ∧ m.hasField k = false ∧
        checkAttributeKeys m attrs = some (.unknownAttribute k)) := by
  intro attrs
  induction attrs with
  | nil => exact Or.inl ⟨rfl, fun p hp => absurd hp (List.not_mem_nil p)⟩
  | cons p rest ih =>
      obtain ⟨k0, v0⟩ := p
      by_cases h0 : m.hasField k0 = false
      · refine Or.inr ⟨k0, List.mem_cons_self _ _, h0, ?_⟩
        rw [checkAttributeKeys, if_pos h0]
      · have h0t : m.hasField k0 = true := by
          cases h : m.hasField k0 with
          | false => exact absurd h h0
          | true => rfl
        rcases ih with ⟨hnone, hall⟩ | ⟨k, hk, hkf, hsome⟩
        · refine Or.inl ⟨?_, ?_⟩
          · rw [checkAttributeKeys, if_neg h0, hnone]
          · intro q hq
            rcases List.mem_cons.mp hq with h | h
            · rw [h]; exact h0t
            · exact hall q h
        · refine Or.inr ⟨k, ?_, hkf, ?_⟩
          · exact List.mem_cons_of_mem _ hk
          · rw [checkAttributeKeys, if_neg h0, hsome]

/-- Every outcome of the field-validation loop: success, or an
`UnknownRelationship`/`UnknownAttribute` naming a genuinely unknown key. -/
theorem checkFieldsAux_spec (m : ModelCtx) (data : List (String × JVal))
    (hrs : relShapeOk data) (has : attrShapeOk data) :
    ∀ l : List (String × JVal),
      checkFieldsAux m data l = Option.none ∨
      (∃ k, k ∈ (relEntries data).map Prod.fst ∧ m.hasField k = false ∧
        checkFieldsAux m data l = some (.unknownRelationship k)) ∨
      (∃ k, k ∈ (attrEntries data).map Prod.fst ∧ m.hasField k = false ∧
        checkFieldsAux m data l = some (.unknownAttribute k)) := by
  intro l
  induction l with
  | nil => exact Or.inl rfl
  | cons p rest ih =>
      obtain ⟨field, v0⟩ := p
      by_cases hf : field = "relationships"
      · cases hv : dlookup data "relationships" with
        | none =>
            simp only [checkFieldsAux, if_pos hf, hv]
            exact ih
        | some w =>
            obtain ⟨rels, rfl⟩ := hrs w hv
            rcases checkRelationshipKeys_spec m rels with ⟨hnone, _⟩ | ⟨k, hk, hkf, hsome⟩
            · simp only [checkFieldsAux, if_pos hf, hv, hnone]
              exact ih
            · refine Or.inr (Or.inl ⟨k, ?_, hkf, ?_⟩)
              · rw [relEntries, hv]
                exact hk
              · simp only [checkFieldsAux, if_pos hf, hv, hsome]
      · by_cases ha : field = "attributes"
        · cases hv : dlookup data "attributes" with
          | none =>
              simp only [checkFieldsAux, if_neg hf, if_pos ha, hv]
              exact ih
          | some w =>
              obtain ⟨attrs, rfl⟩ := has w hv
              rcases checkAttributeKeys_spec m attrs with ⟨hnone, _⟩ | ⟨k, hk, hkf, hsome⟩
              · simp only [checkFieldsAux, if_neg hf, if_pos ha, hv, hnone]
                exact ih
              · refine Or.inr (Or.inr ⟨k, ?_, hkf, ?_⟩)
                · rw [attrEntries, hv]
                  exact hk
                · simp only [checkFieldsAux, if_neg hf, if_pos ha, hv, hsome]
        · simp only [checkFieldsAux, if_neg hf, if_neg ha]
          exact ih

/-- If every key under `relationships` and `attributes` is a known field, the
field-validation loop passes. -/
theorem checkFields_none_of_ok (m : ModelCtx) (data : List (String × JVal))
    (hrs : relShapeOk data) (has : attrShapeOk data)
    (hrelok : ∀ p, p ∈ relEntries data → m.hasField p.1 = true)
    (hattrok : ∀ p, p ∈ attrEntries data → m.hasField p.1 = true) :
    checkFields m data = Option.none := by
  rcases checkFieldsAux_spec m data hrs has data with h | ⟨k, hk, hkf, _⟩ | ⟨k, hk, hkf, _⟩
  · exact h
  · obtain ⟨p, hp, hpk⟩ := List.mem_map.mp hk
    rw [← hpk] at hkf
    rw [hrelok p hp] at hkf
    exact Bool.noConfusion hkf
  · obtain ⟨p, hp, hpk⟩ := List.mem_map.mp hk
    rw [← hpk] at hkf
    rw [hattrok p hp] at hkf
    exact Bool.noConfusion hkf

/-- If some key under `relationships` is unknown, the loop does not pass
(once the traversal reaches a `relationships` entry). -/
theorem checkFieldsAux_ne_none_rel (m : ModelCtx) (data : List (String × JVal))
    (hbad : ∃ p, p ∈ relEntries data ∧ m.hasField p.1 = false) :
    ∀ l : List (String × JVal), (∃ p, p ∈ l ∧ p.1 = "relationships") →
      checkFieldsAux m data l ≠ Option.none := by
  intro l
  induction l with
  | nil =>
      intro hmem
      obtain ⟨p, hp, _⟩ := hmem
      exact absurd hp (List.not_mem_nil p)
  | cons q rest ih =>
      intro hmem
      obtain ⟨field, v0⟩ := q
      obtain ⟨pb, hpb, hpbf⟩ := hbad
      by_cases hf : field = "relationships"
      · cases hv : dlookup data "relationships" with
        | none =>
            rw [relEntries, hv] at hpb
            exact absurd hpb (List.not_mem_nil pb)
        | some w =>
            cases w with
            | obj rels =>
                rw [relEntries, hv] at hpb
                rcases checkRelationshipKeys_spec m rels with ⟨_, hall⟩ | ⟨k, _, _, hsome⟩
                · rw [hall pb hpb] at hpbf
                  exact Bool.noConfusion hpbf
                · simp only [checkFieldsAux, if_pos hf, hv, hsome]
                  exact Option.noConfusion
            | null =>
                simp only [checkFieldsAux, if_pos hf, hv]
                exact Option.noConfusion
            | str s =>
                simp only [checkFieldsAux, if_pos hf, hv]
                exact Option.noConfusion
            | num n =>
                simp only [checkFieldsAux, if_pos hf, hv]
                exact Option.noConfusion
            | boolean b =>
                simp only [checkFieldsAux, if_pos hf, hv]
                exact Option.noConfusion
            | arr xs =>
                simp only [checkFieldsAux, if_pos hf, hv]
                exact Option.noConfusion
      · have hmem2 : ∃ p, p ∈ rest ∧ p.1 = "relationships" := by
          obtain ⟨p, hp, hpk⟩ := hmem
          rcases List.mem_cons.mp hp with h | h
          · exfalso
            rw [h] at hpk
            exact hf hpk
          · exact ⟨p, h, hpk⟩
        by_cases ha : field = "attributes"
        · cases hv : dlookup data "attributes" with
          | none =>
              simp only [checkFieldsAux, if_neg hf, if_pos ha, hv]
              exact ih hmem2
          | some w =>
              cases w with
              | obj attrs =>
                  rcases checkAttributeKeys_spec m attrs with ⟨hnone, _⟩ | ⟨k, _, _, hsome⟩
                  · simp only [checkFieldsAux, if_neg hf, if_pos ha, hv, hnone]
                    exact ih hmem2
                  · simp only [checkFieldsAux, if_neg hf, if_pos ha, hv, hsome]
                    exact Option.noConfusion
              | null =>
                  simp only [checkFieldsAux, if_neg hf, if_pos ha, hv]
                  exact Option.noConfusion
              | str s =>
                  simp only [checkFieldsAux, if_neg hf, if_pos ha, hv]
                  exact Option.noConfusion
              | num n =>
                  simp only [checkFieldsAux, if_neg hf, if_pos ha, hv]
                  exact Option.noConfusion
              | boolean b =>
                  simp only [checkFieldsAux, if_neg hf, if_pos ha, hv]
                  exact Option.noConfusion
              | arr xs =>
                  simp only [checkFieldsAux, if_neg hf, if_pos ha, hv]
                  exact Option.noConfusion
        · simp only [checkFieldsAux, if_neg hf, if_neg ha]
          exact ih hmem2

/-- If some key under `attributes` is unknown, the loop does not pass (once
the traversal reaches an `attributes` entry). -/
theorem checkFieldsAux_ne_none_attr (m : ModelCtx) (data : List (String × JVal))
    (hbad : ∃ p, p ∈ attrEntries data ∧ m.hasField p.1 = false) :
    ∀ l : List (String × JVal), (∃ p, p ∈ l ∧ p.1 = "attributes") →
      checkFieldsAux m data l ≠ Option.none := by
  intro l
  induction l with
  | nil =>
      intro hmem
      obtain ⟨p, hp, _⟩ := hmem
      exact absurd hp (List.not_mem_nil p)
  | cons q rest ih =>
      intro hmem
      obtain ⟨field, v0⟩ := q
      obtain ⟨pb, hpb, hpbf⟩ := hbad
      by_cases ha : field = "attributes"
      · have hf : field ≠ "relationships" := by
          rw [ha]
          decide
        cases hv : dlookup data "attributes" with
        | none =>
            rw [attrEntries, hv] at hpb
            exact absurd hpb (List.not_mem_nil pb)
        | some w =>
            cases w with
            | obj attrs =>
                rw [attrEntries, hv] at hpb
                rcases checkAttributeKeys_spec m attrs with ⟨_, hall⟩ | ⟨k, _, _, hsome⟩
                · rw [hall pb hpb] at hpbf
                  exact Bool.noConfusion hpbf
                · simp only [checkFieldsAux, if_neg hf, if_pos ha, hv, hsome]
                  exact Option.noConfusion
            | null =>
                simp only [checkFieldsAux, if_neg hf, if_pos ha, hv]
                exact Option.noConfusion
            | str s =>
                simp only [checkFieldsAux, if_neg hf, if_pos ha, hv]
                exact Option.noConfusion
            | num n =>
                simp only [checkFieldsAux, if_neg hf, if_pos ha, hv]
                exact Option.noConfusion
            | boolean b =>
                simp only [checkFieldsAux, if_neg hf, if_pos ha, hv]
                exact Option.noConfusion
            | arr xs =>
                simp only [checkFieldsAux, if_neg hf, if_pos ha, hv]
                exact Option.noConfusion
      · have hmem2 : ∃ p, p ∈ rest ∧ p.1 = "attributes" := by
          obtain ⟨p, hp, hpk⟩ := hmem
          rcases List.mem_cons.mp hp with h | h
          · exfalso
            rw [h] at hpk
            exact ha hpk
          · exact ⟨p, h, hpk⟩
        by_cases hf : field = "relationships"
        · cases hv : dlookup data "relationships" with
          | none =>
              simp only [checkFieldsAux, if_pos hf, hv]
              exact ih hmem2
          | some w =>
              cases w with
              | obj rels =>
                  rcases checkRelationshipKeys_spec m rels with ⟨hnone, _⟩ | ⟨k, _, _, hsome⟩
                  · simp only [checkFieldsAux, if_pos hf, hv, hnone]
                    exact ih hmem2
                  · simp only [checkFieldsAux, if_pos hf, hv, hsome]
                    exact Option.noConfusion
              | null =>
                  simp only [checkFieldsAux, if_pos hf, hv]
                  exact Option.noConfusion
              | str s =>
                  simp only [checkFieldsAux, if_pos hf, hv]
                  exact Option.noConfusion
              | num n =>
                  simp only [checkFieldsAux, if_pos hf, hv]
                  exact Option.noConfusion
              | boolean b =>
                  simp only [checkFieldsAux, if_pos hf, hv]
                  exact Option.noConfusion
              | arr xs =>
                  simp only [checkFieldsAux, if_pos hf, hv]
                  exact Option.noConfusion
        · simp only [checkFieldsAux, if_neg hf, if_neg ha]
          exact ih hmem2

/-- After the document-level validation passed (a mapping under `data`, a
matching `type`, an admissible `id`), `deserialize` proceeds with the
field-validation and relationship-resolution stages on `data` with `type`
popped. -/
theorem deserialize_after_validation (ctx : DeserializerCtx)
    (document data : List (String × JVal))
    (hdoc : dlookup document "data" = some (.obj data))
    (htype : dlookup data "type" = some (.str ctx.model.collectionName))
    (hid : ¬ (dcontains data "id" = true ∧ ctx.allowClientGeneratedIds = false)) :
    deserialize ctx document =
      (match checkFields ctx.model (dremove data "type") with
       | some e =>
           ((Except.error e : Except DErr Instance),
             dset document "data" (.obj (dremove data "type")))
       | Option.none =>
           match dlookup (dremove data "type") "relationships" with
           | some (.obj rels) =>
               (match deserializeLinks ctx.model rels with
                | .error e =>
                    (.error e, dset document "data"
                      (.obj (dremove (dremove data "type") "relationships")))
                | .ok links =>
                    deserializeTail ctx document links
                      (dremove (dremove data "type") "relationships"))
           | some _ =>
               (.error .pyError, dset document "data"
                 (.obj (dremove (dremove data "type") "relationships")))
           | Option.none => deserializeTail ctx document [] (dremove data "type")) := by
  have hc : dcontains document "data" = true := dcontains_of_dlookup hdoc
  have hct : dcontains data "type" = true := dcontains_of_dlookup htype
  simp only [deserialize, hc, hdoc, Option.getD_some, hct, htype, hid,
    Bool.true_eq_false, if_false, ite_false, if_neg, ne_eq, JVal.str.injEq,
    not_true_eq_false, not_false_eq_true, ite_true, if_true]

/-- C1: deserialization validates in a fixed fail-fast order with one
distinct error per condition: no `data` key raises `MissingData`; otherwise
no `type` key under data raises `MissingType`; otherwise an `id` key with
client-generated IDs disallowed raises `ClientGeneratedIDNotAllowed`;
otherwise a declared type different from the registered collection name
raises `ConflictingType`; otherwise a key under `relationships` naming a
non-existent relationship raises `UnknownRelationship` and a key under
`attributes` naming a non-existent or non-settable field raises
`UnknownAttribute` (whichever bad key the dict iteration reaches first, each
naming a genuinely unknown key); and no model instance is constructed when
any of these errors is raised. -/
theorem deserialize_validation_sequence (ctx : DeserializerCtx)
    (document : List (String × JVal)) :
    (dcontains document "data" = false →
      (deserialize ctx document).1 = .error (.missingData Option.none)) ∧
    (∀ data, dlookup document "data" = some (.obj data) →
      (dcontains data "type" = false →
        (deserialize ctx document).1 = .error (.missingType Option.none)) ∧
      (dcontains data "type" = true → dcontains data "id" = true →
        ctx.allowClientGeneratedIds = false →
        (deserialize ctx document).1 = .error .clientGeneratedIDNotAllowed) ∧
      (∀ t, dlookup data "type" = some t →
        (dcontains data "id" = true → ctx.allowClientGeneratedIds = true) →
        t ≠ .str ctx.model.collectionName →
        (deserialize ctx document).1 =
          .error (.conflictingType (.s ctx.model.collectionName) (.j t) .none)) ∧
      (dlookup data "type" = some (.str ctx.model.collectionName) →
        (dcontains data "id" = true → ctx.allowClientGeneratedIds = true) →
        relShapeOk data → attrShapeOk data →
        ((∃ p, p ∈ relEntries data ∧ ctx.model.hasField p.1 = false) ∨
         (∃ p, p ∈ attrEntries data ∧ ctx.model.hasField p.1 = false)) →
        (∃ k, (k ∈ (relEntries data).map Prod.fst ∧ ctx.model.hasField k = false ∧
                (deserialize ctx document).1 = .error (.unknownRelationship k)) ∨
              (k ∈ (attrEntries data).map Prod.fst ∧ ctx.model.hasField k = false ∧
                (deserialize ctx document).1 = .error (.unknownAttribute k))))) ∧
    (∀ e, (deserialize ctx document).1 = .error e →
      ∀ inst, (deserialize ctx document).1 ≠ .ok inst) := by
  refine ⟨?_, ?_, ?_⟩
  · intro h
    simp only [deserialize, h, if_true]
  · intro data hdoc
    have hc : dcontains document "data" = true := dcontains_of_dlookup hdoc
    refine ⟨?_, ?_, ?_, ?_⟩
    · intro hnt
      simp only [deserialize, hc, Bool.true_eq_false, if_false, ite_false, hdoc,
        Option.getD_some, hnt, if_true]
    · intro hct hcid hallow
      simp only [deserialize, hc, Bool.true_eq_false, if_false, ite_false, hdoc,
        Option.getD_some, hct, hcid, hallow, and_self, if_true, ite_true]
    · intro t ht hid hne
      have hct : dcontains data "type" = true := dcontains_of_dlookup ht
      have hidneg : ¬ (dcontains data "id" = true ∧ ctx.allowClientGeneratedIds = false) := by
        rintro ⟨h1, h2⟩
        rw [hid h1] at h2
        exact Bool.noConfusion h2
      simp only [deserialize, hc, Bool.true_eq_false, if_false, ite_false, hdoc,
        Option.getD_some, hct, hidneg, ht, hne, ite_true, if_pos, ne_eq,
        not_false_eq_true]
    · intro ht hid hrs has hbad
      have hidneg : ¬ (dcontains data "id" = true ∧ ctx.allowClientGeneratedIds = false) := by
        rintro ⟨h1, h2⟩
        rw [hid h1] at h2
        exact Bool.noConfusion h2
      have hred := deserialize_after_validation ctx document data hdoc ht hidneg
      -- Transfer the relationship/attribute views from `data` to `data`
      -- with `type` popped.
      have hrel1 : dlookup (dremove data "type") "relationships" =
          dlookup data "relationships" :=
        dlookup_dremove_ne "type" "relationships" (by decide) data
      have hattr1 : dlookup (dremove data "type") "attributes" =
          dlookup data "attributes" :=
        dlookup_dremove_ne "type" "attributes" (by decide) data
      have hrelE : relEntries (dremove data "type") = relEntries data := by
        rw [relEntries, relEntries, hrel1]
      have hattrE : attrEntries (dremove data "type") = attrEntries data := by
        rw [attrEntries, attrEntries, hattr1]
      have hrs1 : relShapeOk (dremove data "type") := by
        intro v hv
        rw [hrel1] at hv
        exact hrs v hv
      have has1 : attrShapeOk (dremove data "type") := by
        intro v hv
        rw [hattr1] at hv
        exact has v hv
      have hne : checkFields ctx.model (dremove data "type") ≠ Option.none := by
        rcases hbad with ⟨p, hp, hpf⟩ | ⟨p, hp, hpf⟩
        · -- An entry with key `relationships` exists in the popped data.
          have hvsome : ∃ rels, dlookup data "relationships" = some (.obj rels) ∧ p ∈ rels := by
            rw [relEntries] at hp
            cases hv : dlookup data "relationships" with
            | none => rw [hv] at hp; exact absurd hp (List.not_mem_nil p)
            | some w =>
                cases w with
                | obj rels => rw [hv] at hp; exact ⟨rels, rfl, hp⟩
                | null => rw [hv] at hp; exact absurd hp (List.not_mem_nil p)
                | str s => rw [hv] at hp; exact absurd hp (List.not_mem_nil p)
                | num n => rw [hv] at hp; exact absurd hp (List.not_mem_nil p)
                | boolean b => rw [hv] at hp; exact absurd hp (List.not_mem_nil p)
                | arr xs => rw [hv] at hp; exact absurd hp (List.not_mem_nil p)
          obtain ⟨rels, hv, _⟩ := hvsome
          have hmem : ∃ q, q ∈ dremove data "type" ∧ q.1 = "relationships" :=
            dlookup_some_mem (by rw [hrel1]; exact hv)
          refine checkFieldsAux_ne_none_rel ctx.model (dremove data "type") ?_
            (dremove data "type") hmem
          rw [hrelE]
          exact ⟨p, hp, hpf⟩
        · have hvsome : ∃ attrs, dlookup data "attributes" = some (.obj attrs) ∧ p ∈ attrs := by
            rw [attrEntries] at hp
            cases hv : dlookup data "attributes" with
            | none => rw [hv] at hp; exact absurd hp (List.not_mem_nil p)
            | some w =>
                cases w with
                | obj attrs => rw [hv] at hp; exact ⟨attrs, rfl, hp⟩
                | null => rw [hv] at hp; exact absurd hp (List.not_mem_nil p)
                | str s => rw [hv] at hp; exact absurd hp (List.not_mem_nil p)
                | num n => rw [hv] at hp; exact absurd hp (List.not_mem_nil p)
                | boolean b => rw [hv] at hp; exact absurd hp (List.not_mem_nil p)
                | arr xs => rw [hv] at hp; exact absurd hp (List.not_mem_nil p)
          obtain ⟨attrs, hv, _⟩ := hvsome
          have hmem : ∃ q, q ∈ dremove data "type" ∧ q.1 = "attributes" :=
            dlookup_some_mem (by rw [hattr1]; exact hv)
          refine checkFieldsAux_ne_none_attr ctx.model (dremove data "type") ?_
            (dremove data "type") hmem
          rw [hattrE]
          exact ⟨p, hp, hpf⟩
      rcases checkFieldsAux_spec ctx.model (dremove data "type") hrs1 has1
          (dremove data "type") with hnone | ⟨k, hk, hkf, hsome⟩ | ⟨k, hk, hkf, hsome⟩
      · exact absurd hnone hne
      · refine ⟨k, Or.inl ⟨?_, hkf, ?_⟩⟩
        · rw [hrelE] at hk
          exact hk
        · rw [hred]
          have hcf : checkFields ctx.model (dremove data "type") =
              some (.unknownRelationship k) := hsome
          rw [hcf]
      · refine ⟨k, Or.inr ⟨?_, hkf, ?_⟩⟩
        · rw [hattrE] at hk
          exact hk
        · rw [hred]
          have hcf : checkFields ctx.model (dremove data "type") =
              some (.unknownAttribute k) := hsome
          rw [hcf]
  · intro e he inst hc
    rw [he] at hc
    exact Except.noConfusion hc

/-- A concrete person model for the deserializer: fields `name` and
`articles`, one relationship `articles` to the article model, no persisted
article instances. -/
def sampleModel : ModelCtx :=
  { collectionName := "person",
    hasField := fun k => k == "name" || k == "articles",
    related := fun k =>
      if k == "articles" then
        some { relatedTypeName := "article", lookup := fun _ => Option.none }
      else Option.none,
    fieldKind := fun _ => Option.none }

/-- A concrete deserializer for the sample person model, client-generated
IDs disallowed. -/
def sampleDeserializer : DeserializerCtx :=
  { model := sampleModel, allowClientGeneratedIds := false }

/-- Witness for C1 at a concrete input: a document whose `data` mapping lacks
a `type` key is rejected with `MissingType`. -/
theorem deserialize_validation_sequence_witness :
    (deserialize sampleDeserializer [("data", .obj [("attributes", .obj [])])]).1 =
      .error (.missingType Option.none) :=
  ((deserialize_validation_sequence sampleDeserializer
      [("data", .obj [("attributes", .obj [])])]).2.1
    [("attributes", .obj [])] rfl).1 rfl

/-- On a successful run, the tail stage leaves the document's `data` mapping
with `attributes` popped and its entries merged in. -/
theorem deserializeTail_doc (ctx : DeserializerCtx)
    (document : List (String × JVal)) (links : List (String × RelValue))
    (data2 : List (String × JVal)) (inst : Instance)
    (hok : (deserializeTail ctx document links data2).1 = .ok inst) :
    (deserializeTail ctx document links data2).2 =
      dset document "data"
        (.obj (dupdate (dremove data2 "attributes") (attrEntries data2))) := by
  cases hattr : dlookup data2 "attributes" with
  | none =>
      have habs : dcontains data2 "attributes" = false := by
        simp [dcontains, hattr]
      have hrm : dremove data2 "attributes" = data2 := dremove_absent habs
      have hent : attrEntries data2 = [] := by
        rw [attrEntries, hattr]
      rw [hent, hrm]
      simp only [deserializeTail, hattr]
      cases hstd : strings_to_datetimes ctx.model.fieldKind data2 with
      | error e =>
          exfalso
          simp only [deserializeTail, hattr, hstd] at hok
          exact Except.noConfusion hok
      | ok kwargs =>
          simp only [hstd]
          rfl
  | some w =>
      cases w with
      | obj attrs =>
          have hent : attrEntries data2 = attrs := by
            rw [attrEntries, hattr]
          rw [hent]
          simp only [deserializeTail, hattr]
          cases hstd : strings_to_datetimes ctx.model.fieldKind
              (dupdate (dremove data2 "attributes") attrs) with
          | error e =>
              exfalso
              simp only [deserializeTail, hattr, hstd] at hok
              exact Except.noConfusion hok
          | ok kwargs =>
              simp only [hstd]
      | null =>
          exfalso
          simp only [deserializeTail, hattr] at hok
          exact Except.noConfusion hok
      | str s =>
          exfalso
          simp only [deserializeTail, hattr] at hok
          exact Except.noConfusion hok
      | num n =>
          exfalso
          simp only [deserializeTail, hattr] at hok
          exact Except.noConfusion hok
      | boolean b =>
          exfalso
          simp only [deserializeTail, hattr] at hok
          exact Except.noConfusion hok
      | arr xs =>
          exfalso
          simp only [deserializeTail, hattr] at hok
          exact Except.noConfusion hok

/-- C9 (amended): deserialization performs no persistence operation (the
session is consulted only through the read-only `get_by` lookups embedded in
the relationship resolvers), but it does mutate the caller's document: on a
successful run the `data` mapping is left with `type`, `relationships` and
`attributes` popped and the attribute entries merged into its top level. -/
theorem deserialize_mutates_document (ctx : DeserializerCtx)
    (document data : List (String × JVal)) (inst : Instance)
    (hdoc : dlookup document "data" = some (.obj data))
    (htype : dlookup data "type" = some (.str ctx.model.collectionName))
    (hid : ¬ (dcontains data "id" = true ∧ ctx.allowClientGeneratedIds = false))
    (hok : (deserialize ctx document).1 = .ok inst) :
    (deserialize ctx document).2 =
      dset document "data" (.obj (dupdate
        (dremove (dremove (dremove data "type") "relationships") "attributes")
        (attrEntries (dremove data "type")))) := by
  have hred := deserialize_after_validation ctx document data hdoc htype hid
  rw [hred] at hok ⊢
  have hattr1 : dlookup (dremove (dremove data "type") "relationships") "attributes" =
      dlookup (dremove data "type") "attributes" :=
    dlookup_dremove_ne "relationships" "attributes" (by decide) (dremove data "type")
  have hentT : attrEntries (dremove (dremove data "type") "relationships") =
      attrEntries (dremove data "type") := by
    rw [attrEntries, attrEntries, hattr1]
  cases hcf : checkFields ctx.model (dremove data "type") with
  | some e =>
      exfalso
      simp only [hcf] at hok
      exact Except.noConfusion hok
  | none =>
      simp only [hcf] at hok ⊢
      cases hrel : dlookup (dremove data "type") "relationships" with
      | none =>
          have habs : dcontains (dremove data "type") "relationships" = false := by
            simp [dcontains, hrel]
          have hrm : dremove (dremove data "type") "relationships" = dremove data "type" :=
            dremove_absent habs
          simp only [hrel] at hok ⊢
          rw [hrm]
          exact deserializeTail_doc ctx document [] _ inst hok
      | some w =>
          cases w with
          | obj rels =>
              simp only [hrel] at hok ⊢
              cases hlinks : deserializeLinks ctx.model rels with
              | error e =>
                  exfalso
                  simp only [hlinks] at hok
                  exact Except.noConfusion hok
              | ok links =>
                  simp only [hlinks] at hok ⊢
                  rw [← hentT]
                  exact deserializeTail_doc ctx document links _ inst hok
          | null =>
              exfalso
              simp only [hrel] at hok
              exact Except.noConfusion hok
          | str s =>
              exfalso
              simp only [hrel] at hok
              exact Except.noConfusion hok
          | num n =>
              exfalso
              simp only [hrel] at hok
              exact Except.noConfusion hok
          | boolean b =>
              exfalso
              simp only [hrel] at hok
              exact Except.noConfusion hok
          | arr xs =>
              exfalso
              simp only [hrel] at hok
              exact Except.noConfusion hok

/-- The concrete `data` mapping of the mutation counterexample. -/
def sampleMutData : List (String × JVal) :=
  [("type", .str "person"), ("attributes", .obj [("name", .str "foo")])]

/-- A concrete well-formed create document for the sample person model. -/
def sampleMutDoc : List (String × JVal) :=
  [("data", .obj sampleMutData)]

/-- Counterexample to C9 as stated: deserializing this well-formed document
succeeds and leaves the caller's document changed (its `data` mapping has
lost `type` and `attributes` and gained the merged attribute `name`). -/
theorem deserialize_document_changed :
    (deserialize sampleDeserializer sampleMutDoc).1 =
      .ok { kwargs := [("name", .fromJson (.str "foo"))], rels := [] } ∧
    (deserialize sampleDeserializer sampleMutDoc).2 ≠ sampleMutDoc := by
  refine ⟨by decide, by decide⟩

/-- Witness for C9 (amended) at the same concrete input. -/
theorem deserialize_mutates_document_witness :
    (deserialize sampleDeserializer sampleMutDoc).2 =
      dset sampleMutDoc "data" (.obj (dupdate
        (dremove (dremove (dremove sampleMutData "type") "relationships") "attributes")
        (attrEntries (dremove sampleMutData "type")))) :=
  deserialize_mutates_document sampleDeserializer sampleMutDoc sampleMutData
    { kwargs := [("name", .fromJson (.str "foo"))], rels := [] }
    (by decide) (by decide) (by decide) (by decide)

/-- C10: a well-formed relationship linkage whose `id` and `type` are present
and whose `type` matches the related resource type, but whose id matches no
persisted instance, raises no error: the to-one deserialization returns
`None`, a to-many deserialization returns a list with `None` at that
position, and the full deserializer assigns exactly that value to the
relationship. -/
theorem relationship_missing_instance_is_none (rd : RelDeserializer)
    (idv : JVal) (hlook : rd.lookup idv = Option.none) :
    relDeserialize rd (.obj [("id", idv), ("type", .str rd.typeName)]) =
      .ok (.inst Option.none) ∧
    (∀ (x : JVal) (v : RelValue), relDeserialize rd x = .ok v →
      relDeserialize rd (.arr [x, .obj [("id", idv), ("type", .str rd.typeName)]]) =
        .ok (.list [v, .inst Option.none])) ∧
    (∀ (ctx : DeserializerCtx) (r : String) (info : RelInfo) (idw : JVal),
      ctx.model.related r = some info → ctx.model.hasField r = true →
      info.lookup idw = Option.none →
      (deserialize ctx
        [("data", .obj [("type", .str ctx.model.collectionName),
          ("relationships", .obj [(r, .obj [("data",
            .obj [("id", idw), ("type", .str info.relatedTypeName)])])])])]).1 =
        .ok { kwargs := [], rels := [(r, .inst Option.none)] }) := by
  have hlk1 : dlookup [("id", idv), ("type", JVal.str rd.typeName)] "id" = some idv := by
    rw [dlookup, if_pos rfl]
  have hlk2 : dlookup [("id", idv), ("type", JVal.str rd.typeName)] "type" =
      some (.str rd.typeName) := by
    rw [dlookup, if_neg (by decide), dlookup, if_pos rfl]
  have hc1 : dcontains [("id", idv), ("type", JVal.str rd.typeName)] "id" = true := by
    rw [dcontains, hlk1]
    rfl
  have hc2 : dcontains [("id", idv), ("type", JVal.str rd.typeName)] "type" = true := by
    rw [dcontains, hlk2]
    rfl
  have hone : relDeserialize rd (.obj [("id", idv), ("type", .str rd.typeName)]) =
      .ok (.inst Option.none) := by
    simp only [relDeserialize, hc1, hc2, hlk1, hlk2, Option.getD_some,
      Bool.true_eq_false, if_false, ite_false, ne_eq, eq_self_iff_true,
      not_true_eq_false, hlook]
  refine ⟨hone, ?_, ?_⟩
  · intro x v hx
    generalize hgen : JVal.obj [("id", idv), ("type", JVal.str rd.typeName)] = lk
      at hone ⊢
    simp only [relDeserialize, relDeserializeList, hx, hone]
  · intro ctx r info idw hrel hfield hlook2
    have hlkA : dlookup [("id", idw), ("type", JVal.str info.relatedTypeName)] "id" =
        some idw := by
      rw [dlookup, if_pos rfl]
    have hlkB : dlookup [("id", idw), ("type", JVal.str info.relatedTypeName)] "type" =
        some (.str info.relatedTypeName) := by
      rw [dlookup, if_neg (by decide), dlookup, if_pos rfl]
    have hcA : dcontains [("id", idw), ("type", JVal.str info.relatedTypeName)] "id" =
        true := by
      rw [dcontains, hlkA]
      rfl
    have hcB : dcontains [("id", idw), ("type", JVal.str info.relatedTypeName)] "type" =
        true := by
      rw [dcontains, hlkB]
      rfl
    have hone2 : relDeserialize
        { typeName := info.relatedTypeName, relationName := some r,
          lookup := info.lookup }
        (.obj [("id", idw), ("type", .str info.relatedTypeName)]) =
        .ok (.inst Option.none) := by
      simp only [relDeserialize, hcA, hcB, hlkA, hlkB, Option.getD_some,
        Bool.true_eq_false, if_false, ite_false, ne_eq, eq_self_iff_true,
        not_true_eq_false, hlook2]
    have hdoc : dlookup
        [("data", JVal.obj [("type", .str ctx.model.collectionName),
          ("relationships", .obj [(r, .obj [("data",
            .obj [("id", idw), ("type", .str info.relatedTypeName)])])])])]
        "data" = some (.obj [("type", .str ctx.model.collectionName),
          ("relationships", .obj [(r, .obj [("data",
            .obj [("id", idw), ("type", .str info.relatedTypeName)])])])]) := by
      rw [dlookup, if_pos rfl]
    have htype : dlookup [("type", JVal.str ctx.model.collectionName),
        ("relationships", .obj [(r, .obj [("data",
          .obj [("id", idw), ("type", .str info.relatedTypeName)])])])] "type" =
        some (.str ctx.model.collectionName) := by
      rw [dlookup, if_pos rfl]
    have hid : ¬ (dcontains [("type", JVal.str ctx.model.collectionName),
        ("relationships", .obj [(r, .obj [("data",
          .obj [("id", idw), ("type", .str info.relatedTypeName)])])])] "id" = true ∧
        ctx.allowClientGeneratedIds = false) := by
      rintro ⟨h1, _⟩
      rw [dcontains, dlookup, if_neg (by decide), dlookup, if_neg (by decide),
        dlookup] at h1
      exact Bool.noConfusion h1
    have hred := deserialize_after_validation ctx _ _ hdoc htype hid
    rw [hred]
    have hdr : dremove [("type", JVal.str ctx.model.collectionName),
        ("relationships", JVal.obj [(r, .obj [("data",
          .obj [("id", idw), ("type", .str info.relatedTypeName)])])])] "type" =
        [("relationships", JVal.obj [(r, .obj [("data",
          .obj [("id", idw), ("type", .str info.relatedTypeName)])])])] := by
      rw [dremove, if_pos rfl]
    rw [hdr]
    have hcf : checkFields ctx.model
        [("relationships", JVal.obj [(r, .obj [("data",
          .obj [("id", idw), ("type", .str info.relatedTypeName)])])])] =
        Option.none := by
      simp [checkFields, checkFieldsAux, dlookup, checkRelationshipKeys, hfield]
    simp only [hcf]
    have hdl : dlookup [("relationships", JVal.obj [(r, .obj [("data",
        .obj [("id", idw), ("type", .str info.relatedTypeName)])])])]
        "relationships" = some (JVal.obj [(r, .obj [("data",
        .obj [("id", idw), ("type", .str info.relatedTypeName)])])]) := by
      rw [dlookup, if_pos rfl]
    simp only [hdl]
    generalize hgen : JVal.obj [("id", idw), ("type", JVal.str info.relatedTypeName)] = lk
      at hone2 ⊢
    have hcd : dcontains [("data", lk)] "data" = true := by
      rw [dcontains, dlookup, if_pos rfl]
      rfl
    have hld : dlookup [("data", lk)] "data" = some lk := by
      rw [dlookup, if_pos rfl]
    simp only [deserializeLinks, hcd, hld, Option.getD_some, Bool.true_eq_false,
      if_false, ite_false, hrel, hone2]
    have hdr2 : dremove [("relationships", JVal.obj [(r, JVal.obj [("data", lk)])])]
        "relationships" = [] := by
      rw [dremove, if_pos rfl]
    rw [hdr2]
    simp only [deserializeTail, dlookup, strings_to_datetimes]

/-- Witness for C10 at a concrete input: the sample person model with an
`articles` linkage whose id matches nothing. -/
theorem relationship_missing_instance_is_none_witness :
    relDeserialize
      { typeName := "article", relationName := some "articles",
        lookup := fun _ => Option.none }
      (.obj [("id", .str "7"), ("type", .str "article")]) =
      .ok (.inst Option.none) :=
  (relationship_missing_instance_is_none
    { typeName := "article", relationName := some "articles",
      lookup := fun _ => Option.none }
    (.str "7") rfl).1

/-- A concrete article model whose `author` relationship points at the
person model (no persisted people). -/
def articleModel : ModelCtx :=
  { collectionName := "article",
    hasField := fun k => k == "author" || k == "title",
    related := fun k =>
      if k == "author" then
        some { relatedTypeName := "person", lookup := fun _ => Option.none }
      else Option.none,
    fieldKind := fun _ => Option.none }

/-- The article deserializer. -/
def articleDeserializer : DeserializerCtx :=
  { model := articleModel, allowClientGeneratedIds := false }

/-- A create document for an article whose `author` linkage declares the
wrong type `article` (the related resource type is `person`). -/
def conflictingLinkageDoc : List (String × JVal) :=
  [("data", .obj [("type", .str "article"),
    ("relationships", .obj [("author", .obj [("data",
      .obj [("id", .str "1"), ("type", .str "article")])])])])]

/-- C2, evaluated at the failing input: the relationship-scoped
`ConflictingType` is raised with its constructor arguments swapped — its
`expected_type` attribute holds the relationship name `author`, its
`given_type` attribute holds the expected type `person`, and its
`relation_name` attribute holds the client-given type `article`, so the
detail string reads them in the wrong roles.  The top-level document type
check, by contrast, carries expected vs given correctly. -/
theorem conflicting_type_arguments_swapped :
    (deserialize articleDeserializer conflictingLinkageDoc).1 =
      .error (.conflictingType (.s "author") (.s "person") (.j (.str "article"))) ∧
    derrDetail (.conflictingType (.s "author") (.s "person") (.j (.str "article"))) =
      "expected type \"author\" but got type \"person\" in linkage object for relationship \"article\"" ∧
    (deserialize articleDeserializer [("data", .obj [("type", .str "person")])]).1 =
      .error (.conflictingType (.s "article") (.j (.str "person")) .none) := by
  refine ⟨by decide, by decide, by decide⟩

end FlaskRestless
